import Mathlib

/-!
Verification of the `chess_manager` tournament engine
(`src/chess_manager/...`: `models/match_models.py`, `models/round_models.py`,
`models/tournament_models.py`, `models/player_models.py`,
`models/tournament_repository.py`, `constants/match_results.py`,
`utils/player_validators.py`, `controllers/main_controller.py`).

Python strings are modelled as lists of Unicode code points (`PyStr`), so that
the normalisation methods used by the code (`str.strip`, `str.upper`,
`str.lower`, `str.title`) become arithmetic on code points.  `pystr` converts
a Lean string literal to this representation.  Python `float` scores are
modelled as integers counting half points (every score in the program is a
multiple of 0.5, on which binary floating point arithmetic is exact); the
progress percentage, which divides round counts, is computed in `ℚ` with
Python's banker's rounding.  Python exceptions are modelled
with `Except`; an operation that mutates `self` before raising returns the
partially mutated state inside the error, mirroring the fact that in Python
the mutations done before a `raise` persist.
-/

namespace ChessManager

abbrev PyStr := List Nat

/-- Match/ledger points in half-point units (`1.0` point = `2`): every score
the Python code handles is a multiple of `0.5`, and float arithmetic on such
values is exact, so this integer encoding is faithful. -/
abbrev HalfPts := Int

def pystr (s : String) : PyStr := s.data.map Char.toNat

instance {ε α : Type _} [DecidableEq ε] [DecidableEq α] : DecidableEq (Except ε α) :=
  fun x y =>
    match x, y with
    | .ok a, .ok b =>
      if h : a = b then isTrue (by rw [h])
      else isFalse (by intro hh; cases hh; exact h rfl)
    | .error a, .error b =>
      if h : a = b then isTrue (by rw [h])
      else isFalse (by intro hh; cases hh; exact h rfl)
    | .ok _, .error _ => isFalse (by intro hh; cases hh)
    | .error _, .ok _ => isFalse (by intro hh; cases hh)

/-- Python `str.strip()` default whitespace (the ASCII part, which covers
every character accepted by the validators of `player_validators.py`). -/
def isPySpace (n : Nat) : Bool :=
  n = 32 || n = 9 || n = 10 || n = 13 || n = 11 || n = 12

def pyStrip (s : PyStr) : PyStr :=
  ((s.dropWhile isPySpace).reverse.dropWhile isPySpace).reverse

/-- Cased code points, restricted to the character set accepted by
`is_valid_name` / `is_valid_id` together with their images under Python
case mappings: ASCII letters, the Latin-1 letter blocks `À-Ö`, `Ø-ö`,
`ø-ÿ`, and `Ÿ` (U+0178, the Python uppercase of `ÿ`). -/
def isCasedPy (n : Nat) : Bool :=
  (65 ≤ n && n ≤ 90) || (97 ≤ n && n ≤ 122) ||
  (192 ≤ n && n ≤ 214) || (216 ≤ n && n ≤ 246) || (248 ≤ n && n ≤ 255) ||
  n = 376

/-- Python `str.upper` on one code point of the modelled character set
(`ß` expands at the string level, see `cUpperL`).  Note `ÿ` (255) uppercases
to `Ÿ` (376), which lies outside Latin-1. -/
def cUpper (n : Nat) : Nat :=
  if 97 ≤ n ∧ n ≤ 122 then n - 32
  else if (224 ≤ n ∧ n ≤ 246) ∨ (248 ≤ n ∧ n ≤ 254) then n - 32
  else if n = 255 then 376
  else n

/-- Python `str.lower` on one code point of the modelled character set. -/
def cLower (n : Nat) : Nat :=
  if 65 ≤ n ∧ n ≤ 90 then n + 32
  else if (192 ≤ n ∧ n ≤ 214) ∨ (216 ≤ n ∧ n ≤ 222) then n + 32
  else if n = 376 then 255
  else n

/-- Python `str.upper` on one code point, string-valued: `ß` (223) expands
to `"SS"`. -/
def cUpperL (n : Nat) : List Nat :=
  if n = 223 then [83, 83] else [cUpper n]

/-- Python title-casing of one code point (`ß` title-cases to `"Ss"`;
for every other modelled code point, title case equals upper case). -/
def cTitleL (n : Nat) : List Nat :=
  if n = 223 then [83, 115] else [cUpper n]

def pyUpper (s : PyStr) : PyStr := s.foldr (fun c acc => cUpperL c ++ acc) []

def pyLower (s : PyStr) : PyStr := s.map cLower

/-- Python `str.title`: the first cased character of each run of cased
characters is title-cased, the following ones are lower-cased (CPython
`do_title`: the flag tracks whether the previous original character was
cased). -/
def titleAux : Bool → PyStr → PyStr
  | _, [] => []
  | prev, c :: cs =>
    (if isCasedPy c then (if prev then [cLower c] else cTitleL c) else [c]) ++
      titleAux (isCasedPy c) cs

def pyTitle (s : PyStr) : PyStr := titleAux false s

-- ---------------------------------------------------------------------
-- utils/player_validators.py
-- ---------------------------------------------------------------------

/-- The character class of the name regex `^[A-Za-zÀ-ÖØ-öø-ÿ' -]+$`. -/
def isNameChar (n : Nat) : Bool :=
  (65 ≤ n && n ≤ 90) || (97 ≤ n && n ≤ 122) ||
  (192 ≤ n && n ≤ 214) || (216 ≤ n && n ≤ 246) || (248 ≤ n && n ≤ 255) ||
  n = 39 || n = 32 || n = 45

/-- `is_valid_name`: `re.match(r"^[A-Za-zÀ-ÖØ-öø-ÿ' -]+$", name.strip())`. -/
def isValidName (s : PyStr) : Bool :=
  let t := pyStrip s
  !t.isEmpty && t.all isNameChar

def isAsciiLetter (n : Nat) : Bool := (65 ≤ n && n ≤ 90) || (97 ≤ n && n ≤ 122)

def isDigitCp (n : Nat) : Bool := 48 ≤ n && n ≤ 57

/-- `is_valid_id`: `re.match(r"^[A-Za-z]{2}\d{5}$", national_id)`.
Python `$` also matches just before a single trailing newline. -/
def isValidId (s : PyStr) : Bool :=
  match s with
  | [a, b, d1, d2, d3, d4, d5] =>
    isAsciiLetter a && isAsciiLetter b &&
    isDigitCp d1 && isDigitCp d2 && isDigitCp d3 && isDigitCp d4 && isDigitCp d5
  | [a, b, d1, d2, d3, d4, d5, nl] =>
    isAsciiLetter a && isAsciiLetter b &&
    isDigitCp d1 && isDigitCp d2 && isDigitCp d3 && isDigitCp d4 && isDigitCp d5 &&
    nl = 10
  | _ => false

/-- Calendar dates, for `datetime.date` comparisons. -/
structure Date where
  y : Nat
  m : Nat
  d : Nat
deriving DecidableEq, Repr

def Date.lt (a b : Date) : Prop :=
  a.y < b.y ∨ (a.y = b.y ∧ (a.m < b.m ∨ (a.m = b.m ∧ a.d < b.d)))

def Date.le (a b : Date) : Prop := Date.lt a b ∨ a = b

instance : DecidablePred (fun p : Date × Date => Date.lt p.1 p.2) := fun _ => by
  unfold Date.lt; infer_instance

instance (a b : Date) : Decidable (Date.lt a b) := by unfold Date.lt; infer_instance

instance (a b : Date) : Decidable (Date.le a b) := by unfold Date.le; infer_instance

def isLeapYear (y : Nat) : Bool := y % 4 = 0 && (y % 100 ≠ 0 || y % 400 = 0)

def daysInMonth (y m : Nat) : Nat :=
  if m = 2 then (if isLeapYear y then 29 else 28)
  else if m = 4 ∨ m = 6 ∨ m = 9 ∨ m = 11 then 30
  else 31

def digitsToNat (l : List Nat) : Nat := l.foldl (fun acc d => acc * 10 + (d - 48)) 0

/-- `datetime.strptime(s, "%Y-%m-%d").date()`: `%Y` takes up to four digits,
`%m`/`%d` one or two; the resulting triple must be a real calendar date
(year ≥ 1, month 1–12, day within the month). -/
def parseDate (s : PyStr) : Option Date :=
  match s.splitOn 45 with
  | [ys, ms, ds] =>
    if ys.all isDigitCp && ms.all isDigitCp && ds.all isDigitCp &&
       !ys.isEmpty && decide (ys.length ≤ 4) && !ms.isEmpty && decide (ms.length ≤ 2) &&
       !ds.isEmpty && decide (ds.length ≤ 2) then
      let y := digitsToNat ys
      let m := digitsToNat ms
      let d := digitsToNat ds
      if 1 ≤ y ∧ 1 ≤ m ∧ m ≤ 12 ∧ 1 ≤ d ∧ d ≤ daysInMonth y m then some ⟨y, m, d⟩
      else none
    else none
  | _ => none

/-- `is_valid_birthdate(birthdate)` evaluated on the date `today`
(`MIN_YEAR = 1915`, `MAX_DATE_YEAR =` the current year). -/
def isValidBirthdate (today : Date) (s : PyStr) : Bool :=
  match parseDate s with
  | none => false
  | some b => decide (Date.lt b today) && decide (1915 ≤ b.y) && decide (b.y ≤ today.y)

def pad2 (n : Nat) : PyStr := [48 + n / 10 % 10, 48 + n % 10]

def pad4 (n : Nat) : PyStr := [48 + n / 1000 % 10, 48 + n / 100 % 10] ++ pad2 n

/-- `date.isoformat()` / `datetime.now().strftime("%Y-%m-%d")`. -/
def dateToStr (d : Date) : PyStr := pad4 d.y ++ [45] ++ pad2 d.m ++ [45] ++ pad2 d.d

-- ---------------------------------------------------------------------
-- models/player_models.py
-- ---------------------------------------------------------------------

/-- A `Player`.  The fields coincide with the keys of `Player.to_dict`,
so the same structure serves as the serialized player record. -/
structure Player where
  last_name : PyStr
  first_name : PyStr
  birthdate : PyStr
  national_id : PyStr
  date_enrolled : PyStr
  match_history : List (PyStr × PyStr)
  tournaments_won : Nat
deriving DecidableEq, Repr

/-- The field labels of `constants/player_fields.py`.  The first-name label
is stored mojibake-encoded: the file holds `"Pr√©nom"` (`√` U+221A followed
by `©` U+00A9, a UTF-8 → Mac-Roman double encoding of `é`), not
`"Prénom"`. -/
def FIELD_LAST_NAME : PyStr := pystr "Nom de famille"

def FIELD_FIRST_NAME : PyStr := pystr "Pr√©nom"

def FIELD_BIRTHDATE : PyStr := pystr "Date de naissance"

def FIELD_NATIONAL_ID : PyStr := pystr "Identifiant national"

/-- `VALIDATION_MAP[key]` as the partial dictionary lookup it is (`none` =
`KeyError`).  The validators close over the current date for
`is_valid_birthdate`. -/
def VALIDATION_MAP (today : Date) (key : PyStr) : Option (PyStr → Bool) :=
  if key = FIELD_LAST_NAME then some isValidName
  else if key = FIELD_FIRST_NAME then some isValidName
  else if key = FIELD_BIRTHDATE then some (isValidBirthdate today)
  else if key = FIELD_NATIONAL_ID then some isValidId
  else none

/-- The `Player.__init__` constructor as written: each field is validated
through a `VALIDATION_MAP[...]` lookup, then the fields are normalised
(`strip().title()` for names, `strip().upper()` for the id) and
`date_enrolled` is stamped with today.  The second lookup uses the key
`"Prénom"` while the dictionary's key is the mojibake `"Pr√©nom"`
(see `FIELD_FIRST_NAME`), so that lookup raises `KeyError('Prénom')` on
every input whose last name passed the first check: the constructor never
completes (`playerNew_eq`). -/
def playerNew (today : Date) (ln fn bd nid : PyStr)
    (mh : List (PyStr × PyStr)) (tw : Nat) : Except PyStr Player :=
  match VALIDATION_MAP today (pystr "Nom de famille") with
  | none => .error (pystr "KeyError: Nom de famille")
  | some v1 =>
    if ¬ v1 ln then .error (pystr "Nom de famille invalide.")
    else
      match VALIDATION_MAP today (pystr "Prénom") with
      | none => .error (pystr "KeyError: Prénom")
      | some v2 =>
        if ¬ v2 fn then .error (pystr "Prénom invalide.")
        else
          match VALIDATION_MAP today (pystr "Date de naissance") with
          | none => .error (pystr "KeyError: Date de naissance")
          | some v3 =>
            if ¬ v3 bd then .error (pystr "Date de naissance invalide.")
            else
              match VALIDATION_MAP today (pystr "Identifiant national") with
              | none => .error (pystr "KeyError: Identifiant national")
              | some v4 =>
                if ¬ v4 nid then .error (pystr "Identifiant national invalide.")
                else .ok
                  { last_name := pyTitle (pyStrip ln)
                    first_name := pyTitle (pyStrip fn)
                    birthdate := bd
                    national_id := pyUpper (pyStrip nid)
                    date_enrolled := dateToStr today
                    match_history := mh
                    tournaments_won := tw }

/-- The constructor `Player.__init__` is designed to implement (what its
docstring, error messages and every caller describe): validate the four
fields, then store the normalised values.  `playerNew` as written diverges
from this on every input with a valid last name because of the mojibake
`VALIDATION_MAP` key; the tournament-level developments below treat roster
players as inputs of this intended shape. -/
def playerNewIntended (today : Date) (ln fn bd nid : PyStr)
    (mh : List (PyStr × PyStr)) (tw : Nat) : Except PyStr Player :=
  if ¬ isValidName ln then .error (pystr "Nom de famille invalide.")
  else if ¬ isValidName fn then .error (pystr "Prénom invalide.")
  else if ¬ isValidBirthdate today bd then .error (pystr "Date de naissance invalide.")
  else if ¬ isValidId nid then .error (pystr "Identifiant national invalide.")
  else .ok
    { last_name := pyTitle (pyStrip ln)
      first_name := pyTitle (pyStrip fn)
      birthdate := bd
      national_id := pyUpper (pyStrip nid)
      date_enrolled := dateToStr today
      match_history := mh
      tournaments_won := tw }

/-- `Player.from_dict`: rebuilds through the validating constructor, then
restores `date_enrolled` (`data.get("date_enrolled", now)`; the key is always
present in a `to_dict` image).  Since `playerNew` always raises, so does
this (`Player_from_dict_error`). -/
def Player.from_dict (today : Date) (dataP : Player) : Except PyStr Player :=
  match playerNew today dataP.last_name dataP.first_name dataP.birthdate
      dataP.national_id dataP.match_history dataP.tournaments_won with
  | .error e => .error e
  | .ok p => .ok { p with date_enrolled := dataP.date_enrolled }

/-- `Player.from_dict` under the intended constructor. -/
def Player.from_dict_intended (today : Date) (dataP : Player) :
    Except PyStr Player :=
  match playerNewIntended today dataP.last_name dataP.first_name dataP.birthdate
      dataP.national_id dataP.match_history dataP.tournaments_won with
  | .error e => .error e
  | .ok p => .ok { p with date_enrolled := dataP.date_enrolled }

/-- The `"Nom de famille"` lookup succeeds. -/
theorem VALIDATION_MAP_nom (today : Date) :
    VALIDATION_MAP today (pystr "Nom de famille") = some isValidName := by
  unfold VALIDATION_MAP
  rw [if_pos (show pystr "Nom de famille" = FIELD_LAST_NAME from rfl)]

/-- The `"Prénom"` lookup raises `KeyError`: the stored key is the mojibake
`"Pr√©nom"`. -/
theorem VALIDATION_MAP_prenom (today : Date) :
    VALIDATION_MAP today (pystr "Prénom") = none := by
  unfold VALIDATION_MAP
  rw [if_neg (by decide), if_neg (by decide), if_neg (by decide),
    if_neg (by decide)]

/-- What the constructor actually does: reject an invalid last name, raise
`KeyError('Prénom')` on everything else. -/
theorem playerNew_eq (today : Date) (ln fn bd nid : PyStr)
    (mh : List (PyStr × PyStr)) (tw : Nat) :
    playerNew today ln fn bd nid mh tw =
      if isValidName ln = true then .error (pystr "KeyError: Prénom")
      else .error (pystr "Nom de famille invalide.") := by
  unfold playerNew
  rw [VALIDATION_MAP_nom]
  dsimp only
  by_cases hn : isValidName ln = true
  · rw [if_neg (not_not_intro hn), if_pos hn, VALIDATION_MAP_prenom]
  · rw [if_pos hn, if_neg hn]

/-- `Player.from_dict` fails on every player dictionary. -/
theorem Player_from_dict_error (today : Date) (dataP : Player) :
    Player.from_dict today dataP =
      .error (if isValidName dataP.last_name = true
              then pystr "KeyError: Prénom"
              else pystr "Nom de famille invalide.") := by
  unfold Player.from_dict
  rw [playerNew_eq]
  by_cases hn : isValidName dataP.last_name = true
  · rw [if_pos hn, if_pos hn]
  · rw [if_neg hn, if_neg hn]

example : pyStrip (pystr "  e ") = pystr "e" := by decide

example : pyUpper (pyStrip (pystr " e ")) = pystr "E" := by decide

example : pyTitle (pystr "d'arc") = pystr "D'Arc" := by decide

example : pyTitle (pystr "ÿves") = pystr "Ÿves" := by decide

example : isValidName (pystr "ÿves") = true ∧ isValidName (pystr "Ÿves") = false := by decide

example : isValidId (pystr "ab12345") = true := by decide

example : isValidBirthdate ⟨2025, 10, 12⟩ (pystr "1990-01-01") = true := by decide

example : dateToStr ⟨2025, 10, 12⟩ = pystr "2025-10-12" := by decide

-- ---------------------------------------------------------------------
-- constants/match_results.py
-- ---------------------------------------------------------------------

/-- `MATCH_RESULT_CODES = {"V": "victoire", "D": "défaite", "N": "nul"}`.
Note: the dictionary has no `"E"` entry. -/
def MATCH_RESULT_CODES (code : PyStr) : Option PyStr :=
  if code = pystr "V" then some (pystr "victoire")
  else if code = pystr "D" then some (pystr "défaite")
  else if code = pystr "N" then some (pystr "nul")
  else none

/-- `MATCH_RESULT_POINTS = {"victoire": 1.0, "nul": 0.5, "défaite": 0.0}`.
Note: the dictionary has no `"exempt"` entry.
Scores are measured in `HalfPts`, i.e. integer halves of a point: every
float the program manipulates is a multiple of 0.5, on which binary floating
point arithmetic is exact, so `x` points are modelled as the integer `2x`. -/
def MATCH_RESULT_POINTS (label : PyStr) : Option HalfPts :=
  if label = pystr "victoire" then some 2
  else if label = pystr "nul" then some 1
  else if label = pystr "défaite" then some 0
  else none

-- ---------------------------------------------------------------------
-- models/match_models.py
-- ---------------------------------------------------------------------

structure Match where
  player1 : Player
  player2 : Option Player
  score1 : HalfPts
  score2 : HalfPts
  result1 : Option PyStr
  result2 : Option PyStr
deriving DecidableEq, Repr

/-- The `is_exempt` property: `player2 is None`. -/
def Match.is_exempt (m : Match) : Bool := m.player2.isNone

/-- `Match._auto_set_exempt`: `self.score1 = MATCH_RESULT_POINTS["exempt"]`.
The dictionary lookup raises `KeyError` when the key is absent. -/
def Match.auto_set_exempt (m : Match) : Except PyStr Match :=
  match MATCH_RESULT_POINTS (pystr "exempt") with
  | some pts =>
    .ok { m with result1 := some (pystr "exempt"), score1 := pts
                 result2 := none, score2 := 0 }
  | none => .error (pystr "KeyError: exempt")

/-- `Match.__init__(player1, player2)`: zero scores, no results, and the
exempt outcome is applied immediately when `player2` is absent. -/
def Match.new (p1 : Player) (p2 : Option Player) : Except PyStr Match :=
  let m : Match :=
    { player1 := p1, player2 := p2, score1 := 0, score2 := 0
      result1 := none, result2 := none }
  if m.is_exempt then m.auto_set_exempt else .ok m

/-- The two-player case of `Match.__init__`, where the constructor cannot
raise (see `Match_new_two_players`). -/
def Match.mk2 (p1 p2 : Player) : Match :=
  { player1 := p1, player2 := some p2, score1 := 0, score2 := 0
    result1 := none, result2 := none }

theorem Match_new_two_players (p1 p2 : Player) :
    Match.new p1 (some p2) = .ok (Match.mk2 p1 p2) := rfl

/-- `Match.set_result_by_code(code_for_p1)`. -/
def Match.set_result_by_code (m : Match) (code : PyStr) : Except PyStr Match :=
  let c := pyUpper (pyStrip code)
  match MATCH_RESULT_CODES c with
  | none => .error (pystr "Code resultat invalide.")
  | some label =>
    if label = pystr "exempt" then m.auto_set_exempt
    else if m.is_exempt then m.auto_set_exempt
    else
      let rs : PyStr × PyStr :=
        if label = pystr "victoire" then (pystr "victoire", pystr "défaite")
        else if label = pystr "défaite" then (pystr "défaite", pystr "victoire")
        else (pystr "nul", pystr "nul")
      match MATCH_RESULT_POINTS rs.1, MATCH_RESULT_POINTS rs.2 with
      | some s1, some s2 =>
        .ok { m with result1 := some rs.1, result2 := some rs.2
                     score1 := s1, score2 := s2 }
      | _, _ => .error (pystr "KeyError: label")

/-- `Match.play_match(score1, score2)` (scores in `HalfPts` units:
`(1.0, 0.0)`, `(0.0, 1.0)`, `(0.5, 0.5)` become `(2, 0)`, `(0, 2)`,
`(1, 1)`). -/
def Match.play_match (m : Match) (s1 s2 : HalfPts) : Except PyStr Match :=
  if m.is_exempt then m.auto_set_exempt
  else if s1 = 2 ∧ s2 = 0 then
    .ok { m with result1 := some (pystr "victoire"), result2 := some (pystr "défaite")
                 score1 := s1, score2 := s2 }
  else if s1 = 0 ∧ s2 = 2 then
    .ok { m with result1 := some (pystr "défaite"), result2 := some (pystr "victoire")
                 score1 := s1, score2 := s2 }
  else if s1 = 1 ∧ s2 = 1 then
    .ok { m with result1 := some (pystr "nul"), result2 := some (pystr "nul")
                 score1 := s1, score2 := s2 }
  else .error (pystr "Scores invalides.")

/-- The keys of `Match.to_dict`. -/
structure MatchData where
  player1 : PyStr
  player2 : Option PyStr
  score1 : HalfPts
  score2 : HalfPts
  result1 : Option PyStr
  result2 : Option PyStr
deriving DecidableEq, Repr

def Match.to_dict (m : Match) : MatchData :=
  { player1 := m.player1.national_id
    player2 := m.player2.map Player.national_id
    score1 := m.score1, score2 := m.score2
    result1 := m.result1, result2 := m.result2 }

/-- `Match.from_dict(data, player_lookup)`:
`p1 = player_lookup[data["player1"]]` (raises `KeyError` when absent);
`p2 = player_lookup.get(data.get("player2")) if data.get("player2") else None`
(an id that is truthy but absent from the lookup yields `None`, which sends
the constructor down the exempt branch); then the stored scores/results are
reloaded. -/
def Match.from_dict (lookup : PyStr → Option Player) (d : MatchData) :
    Except PyStr Match :=
  match lookup d.player1 with
  | none => .error (pystr "KeyError: player1")
  | some p1 =>
    let p2 : Option Player :=
      match d.player2 with
      | some s => if s = [] then none else lookup s
      | none => none
    match Match.new p1 p2 with
    | .error e => .error e
    | .ok m =>
      .ok { m with score1 := d.score1, score2 := d.score2
                   result1 := d.result1, result2 := d.result2 }

-- ---------------------------------------------------------------------
-- models/round_models.py
-- ---------------------------------------------------------------------

structure Round where
  round_number : Int
  start_time : PyStr
  end_time : PyStr
  «matches» : List Match
deriving DecidableEq, Repr

/-- `Round.__init__(round_number)` stamps `start_time` with "now"; the clock
is passed in as a parameter. -/
def Round.new (n : Int) (now : PyStr) : Round :=
  { round_number := n, start_time := now, end_time := [], «matches» := [] }

def Round.name (r : Round) : PyStr := pystr "Round " ++ (toString r.round_number).data.map Char.toNat

def Round.add_match (r : Round) (m : Match) : Round :=
  { r with «matches» := r.«matches» ++ [m] }

def Round.end_round (r : Round) (now : PyStr) : Round := { r with end_time := now }

/-- The keys of `Round.to_dict`. -/
structure RoundData where
  round_number : Int
  name : PyStr
  start_time : PyStr
  end_time : PyStr
  «matches» : List MatchData
deriving DecidableEq, Repr

def Round.to_dict (r : Round) : RoundData :=
  { round_number := r.round_number, name := r.name
    start_time := r.start_time, end_time := r.end_time
    «matches» := r.«matches».map Match.to_dict }

/-- `Round.from_dict(data, player_lookup)`; `int(data["round_number"])` is the
identity on the stored integer, `start_time`/`end_time` are restored, and the
matches are rebuilt (an exception from `Match.from_dict` propagates). -/
def Round.from_dict (lookup : PyStr → Option Player) (d : RoundData) :
    Except PyStr Round :=
  match d.«matches».mapM (Match.from_dict lookup) with
  | .error e => .error e
  | .ok ms =>
    .ok { round_number := d.round_number, start_time := d.start_time
          end_time := d.end_time, «matches» := ms }

-- ---------------------------------------------------------------------
-- models/tournament_models.py
-- ---------------------------------------------------------------------

/-- `scores.get(key, default)` on the insertion-ordered dict
`scores : national_id → float`, modelled as an association list. -/
def dictGet (l : List (PyStr × HalfPts)) (k : PyStr) (dflt : HalfPts) : HalfPts :=
  match l.find? (fun kv => kv.1 = k) with
  | some kv => kv.2
  | none => dflt

/-- `scores[key] = v`: replaces the binding in place, or appends a new one
(Python dicts preserve insertion order). -/
def dictSet : List (PyStr × HalfPts) → PyStr → HalfPts → List (PyStr × HalfPts)
  | [], k, v => [(k, v)]
  | kv :: rest, k, v => if kv.1 = k then (k, v) :: rest else kv :: dictSet rest k v

/-- `frozenset({a, b}) in past_pairs`.  The Python `Set[FrozenSet[str]]` is
modelled as an insertion-ordered duplicate-free list of pairs, membership
being symmetric; `(a, a)` stands for the singleton `frozenset({a})`. -/
def pairMem (l : List (PyStr × PyStr)) (a b : PyStr) : Bool :=
  l.any (fun p => (p.1 = a && p.2 = b) || (p.1 = b && p.2 = a))

structure Tournament where
  location : PyStr
  start_date : PyStr
  end_date : PyStr
  started_at : PyStr
  finished_at : PyStr
  description : PyStr
  number_rounds : Int
  current_round_number : Int
  players : List Player
  rounds : List Round
  scores : List (PyStr × HalfPts)
  past_pairs : List (PyStr × PyStr)
  repo_name : PyStr
  winner_id : PyStr
deriving DecidableEq, Repr

/-- `Tournament.__init__(location, start_date, end_date, description,
number_rounds)`.  (`start_date or ""` and `end_date or ""` are the identity
on strings; the description is stripped.) -/
def Tournament.new (location start_date end_date description : PyStr)
    (number_rounds : Int) : Tournament :=
  { location := location, start_date := start_date, end_date := end_date
    started_at := [], finished_at := [], description := pyStrip description
    number_rounds := number_rounds, current_round_number := 0
    players := [], rounds := [], scores := [], past_pairs := []
    repo_name := [], winner_id := [] }

def Tournament.status (t : Tournament) : PyStr :=
  if t.finished_at ≠ [] then pystr "Terminé"
  else if t.started_at ≠ [] then pystr "En cours"
  else pystr "En attente"

def Tournament.name (t : Tournament) : PyStr :=
  t.location ++ pystr "_" ++ t.start_date

def Tournament.registration_open (t : Tournament) : Bool :=
  t.current_round_number = 0

def Tournament.get_description (t : Tournament) : PyStr := t.description

def Tournament.set_description (t : Tournament) (text : PyStr) : Tournament :=
  { t with description := pyStrip text }

def Tournament.has_player (t : Tournament) (nid : PyStr) : Bool :=
  t.players.any (fun p => p.national_id = nid)

def Tournament.roster_size (t : Tournament) : Nat := t.players.length

/-- `mark_launched`: fills `start_date` (today) and `started_at` (now) when
still empty. -/
def Tournament.mark_launched (t : Tournament) (today : Date) (now : PyStr) :
    Tournament :=
  let t := if t.start_date = [] then { t with start_date := dateToStr today } else t
  if t.started_at = [] then { t with started_at := now } else t

def Tournament.mark_finished (t : Tournament) (today : Date) (now : PyStr) :
    Tournament :=
  let t := if t.end_date = [] then { t with end_date := dateToStr today } else t
  if t.finished_at = [] then { t with finished_at := now } else t

/-- `tied_leaders`: ids of roster players whose ledger score (missing keys
count as 0.0) equals the maximum. -/
def Tournament.tied_leaders (t : Tournament) : List PyStr :=
  match t.players with
  | [] => []
  | p0 :: rest =>
    let sc := fun (p : Player) => dictGet t.scores p.national_id 0
    let top := rest.foldl (fun acc q => max acc (sc q)) (sc p0)
    (t.players.filter (fun p => sc p = top)).map Player.national_id

def Tournament.have_first_place_tie (t : Tournament) : Bool :=
  t.tied_leaders.length > 1

/-- `compute_winner_id`: `leaders[0] if len(leaders) == 1 else None`. -/
def Tournament.compute_winner_id (t : Tournament) : Option PyStr :=
  match t.tied_leaders with
  | [l] => some l
  | _ => none

/-- `add_player(player)`. -/
def Tournament.add_player (t : Tournament) (p : Player) :
    Except (PyStr × Tournament) Tournament :=
  if ¬ t.registration_open then
    .error (pystr "Inscription fermee : le tournoi a deja commence.", t)
  else if t.has_player p.national_id then
    .error (pystr "Joueur deja inscrit a ce tournoi.", t)
  else
    .ok { t with players := t.players ++ [p]
                 scores := dictSet t.scores p.national_id 0 }

/-- `add_player_id(national_id, lookup)`: same guards, then
`players.append(lookup[national_id])` — and no ledger initialisation. -/
def Tournament.add_player_id (t : Tournament) (nid : PyStr)
    (lookup : PyStr → Option Player) : Except (PyStr × Tournament) Tournament :=
  if ¬ t.registration_open then
    .error (pystr "Inscription fermee : le tournoi a deja commence.", t)
  else if t.has_player nid then
    .error (pystr "Joueur deja inscrit a ce tournoi.", t)
  else
    match lookup nid with
    | none => .error (pystr "KeyError: national_id", t)
    | some p => .ok { t with players := t.players ++ [p] }

/-- `get_player_by_id`: first roster player with the id, else `KeyError`
(modelled as `none`; every caller turns it into an error). -/
def Tournament.get_player_by_id (t : Tournament) (nid : PyStr) : Option Player :=
  t.players.find? (fun p => p.national_id = nid)

def Tournament.remember_pair (t : Tournament) (id1 id2 : PyStr) : Tournament :=
  if pairMem t.past_pairs id1 id2 then t
  else { t with past_pairs := t.past_pairs ++ [(id1, id2)] }

def Tournament.have_played_before (t : Tournament) (id1 id2 : PyStr) : Bool :=
  pairMem t.past_pairs id1 id2

/-- `apply_match_points(match)` (`float(score or 0.0)` is the identity on the
modelled rational scores). -/
def Tournament.apply_match_points (t : Tournament) (m : Match) : Tournament :=
  let id1 := m.player1.national_id
  let t1 := { t with scores := dictSet t.scores id1 (dictGet t.scores id1 0 + m.score1) }
  match m.player2 with
  | some p2 =>
    let id2 := p2.national_id
    { t1 with scores := dictSet t1.scores id2 (dictGet t1.scores id2 0 + m.score2) }
  | none => t1

def Tournament.update_scores_from_round (t : Tournament) (r : Round) : Tournament :=
  r.«matches».foldl Tournament.apply_match_points t

/-- `round_controller._rollback_points(tournament, match)`. -/
def rollbackPoints (t : Tournament) (m : Match) : Tournament :=
  let id1 := m.player1.national_id
  let t1 := { t with scores := dictSet t.scores id1 (dictGet t.scores id1 0 - m.score1) }
  match m.player2 with
  | some p2 =>
    let id2 := p2.national_id
    { t1 with scores := dictSet t1.scores id2 (dictGet t1.scores id2 0 - m.score2) }
  | none => t1

/-- `add_exempt_bye(rnd, player)`: builds `Match(player, None)` (which already
raises `KeyError` in `_auto_set_exempt`), then `set_result_by_code("E")`,
appends the match and applies its points. -/
def Tournament.add_exempt_bye (t : Tournament) (rnd : Round) (p : Player) :
    Except PyStr (Round × Tournament) :=
  match Match.new p none with
  | .error e => .error e
  | .ok m =>
    match m.set_result_by_code (pystr "E") with
    | .error e => .error e
    | .ok m => .ok (rnd.add_match m, t.apply_match_points m)

def Tournament.add_exempt_bye_by_id (t : Tournament) (rnd : Round) (pid : PyStr) :
    Except PyStr (Round × Tournament) :=
  match t.get_player_by_id pid with
  | none => .error (pystr "KeyError: player")
  | some p => t.add_exempt_bye rnd p

/-- `validate_roster_before_launch`: at least 8 players and
`len(set(ids)) == len(ids)`; returns the error message if any. -/
def Tournament.validate_roster_before_launch (t : Tournament) : Option PyStr :=
  if t.roster_size < 8 then
    some (pystr "Il faut au moins 8 joueurs pour demarrer un tournoi.")
  else
    let ids := t.players.map Player.national_id
    if ids.dedup.length ≠ ids.length then
      some (pystr "Des identifiants joueurs en double ont ete detectes.")
    else none

/-- The pairing loop of `start_first_round`:
`while i + 1 < len(pool)` pairs adjacent players, remembering each pair;
a leftover single element is left for the bye branch. -/
def pairAdjacent : Round → Tournament → List Player → Round × Tournament
  | rnd, t, p1 :: p2 :: rest =>
    pairAdjacent (rnd.add_match (Match.mk2 p1 p2))
      (t.remember_pair p1.national_id p2.national_id) rest
  | rnd, t, _ => (rnd, t)

/-- `start_first_round()`.  `random.shuffle(pool)` is modelled by the injected
`shufP` (a permutation for any actual execution).  On the odd-roster branch the
`KeyError` raised inside `add_exempt_bye` aborts the method after
`current_round_number` was set to 1 but before the round was appended. -/
def Tournament.start_first_round (t : Tournament) (today : Date) (now : PyStr)
    (shufP : List Player → List Player) : Except (PyStr × Tournament) Tournament :=
  if t.current_round_number ≠ 0 then
    .error (pystr "Le tournoi a deja demarre.", t)
  else
    match t.validate_roster_before_launch with
    | some e => .error (e, t)
    | none =>
      let t := t.mark_launched today now
      let t := { t with current_round_number := 1 }
      let rnd := Round.new t.current_round_number now
      let pool := shufP t.players
      let (rnd, t) := pairAdjacent rnd t pool
      if pool.length % 2 = 1 then
        match pool.getLast? with
        | some lastP =>
          match t.add_exempt_bye rnd lastP with
          | .error e => .error (e, t)
          | .ok (rnd, t) => .ok { t with rounds := t.rounds ++ [rnd] }
        | none => .ok { t with rounds := t.rounds ++ [rnd] }
      else .ok { t with rounds := t.rounds ++ [rnd] }

/-- `buckets.setdefault(score, []).append(id)` over the roster, preserving
first-occurrence key order. -/
def bucketsAdd : List (HalfPts × List PyStr) → HalfPts → PyStr → List (HalfPts × List PyStr)
  | [], k, i => [(k, [i])]
  | (k', ids) :: rest, k, i =>
    if k' = k then (k', ids ++ [i]) :: rest else (k', ids) :: bucketsAdd rest k i

def insertDesc (x : HalfPts) : List HalfPts → List HalfPts
  | [] => [x]
  | y :: ys => if x ≥ y then x :: y :: ys else y :: insertDesc x ys

/-- `sorted(keys, reverse=True)` (the keys are distinct scores). -/
def sortDesc (l : List HalfPts) : List HalfPts := l.foldr insertDesc []

def bucketFind (bs : List (HalfPts × List PyStr)) (k : HalfPts) : List PyStr :=
  match bs.find? (fun b => b.1 = k) with
  | some b => b.2
  | none => []

/-- `sorted_player_ids_by_score()`: bucket by score, sort scores descending,
shuffle within each bucket (`shuf`, injected randomness), concatenate. -/
def Tournament.sorted_player_ids_by_score (t : Tournament)
    (shuf : List PyStr → List PyStr) : List PyStr :=
  let bs := t.players.foldl
    (fun bs p => bucketsAdd bs (dictGet t.scores p.national_id 0) p.national_id) []
  (sortDesc (bs.map Prod.fst)).foldl (fun acc k => acc ++ shuf (bucketFind bs k)) []

/-- `sorted_ids[sorted_ids.index(p1_id) + 1:]`, or `None` when `.index`
raises `ValueError`. -/
def suffixAfterFirst : List PyStr → PyStr → Option (List PyStr)
  | [], _ => none
  | y :: ys, x => if y = x then some ys else suffixAfterFirst ys x

/-- `find_partner(p1_id, sorted_ids, used)`: scan forward from `p1_id` for the
first unused id that has not played `p1_id` before. -/
def Tournament.find_partner (t : Tournament) (p1 : PyStr) (ids : List PyStr)
    (used : List PyStr) : Option PyStr :=
  match suffixAfterFirst ids p1 with
  | none => none
  | some suf =>
    suf.find? (fun p2 => !used.contains p2 && !t.have_played_before p1 p2)

/-- The `while i < len(sorted_ids)` pairing loop of `start_next_round`:
skip used ids; try `find_partner`, else the relaxed
`next(pid for pid in sorted_ids[i+1:] if pid not in used and pid != p1_id)`;
create the match, remember the pair, mark both used.  `all` is the full
`sorted_ids` list (after the odd pop), the first argument the remaining
suffix at index `i`. -/
def pairLoop (all : List PyStr) :
    List PyStr → List PyStr → Round → Tournament →
    Except (PyStr × Tournament) (Round × Tournament)
  | [], _, rnd, t => .ok (rnd, t)
  | p1 :: rest, used, rnd, t =>
    if used.contains p1 then pairLoop all rest used rnd t
    else
      let p2x : Option PyStr :=
        match t.find_partner p1 all used with
        | some p2 => some p2
        | none => rest.find? (fun pid => !used.contains pid && !(pid == p1))
      match p2x with
      | none => pairLoop all rest used rnd t
      | some p2 =>
        match t.get_player_by_id p1 with
        | none => .error (pystr "KeyError: player", t)
        | some pl1 =>
          match t.get_player_by_id p2 with
          | none => .error (pystr "KeyError: player", t)
          | some pl2 =>
            pairLoop all rest (used ++ [p1, p2])
              (rnd.add_match (Match.mk2 pl1 pl2)) (t.remember_pair p1 p2)

/-- `start_next_round()`. -/
def Tournament.start_next_round (t : Tournament) (now : PyStr)
    (shuf : List PyStr → List PyStr) : Except (PyStr × Tournament) Tournament :=
  if t.current_round_number = 0 then
    .error (pystr "Le tournoi n a pas encore demarre.", t)
  else if t.current_round_number ≥ t.number_rounds then
    .error (pystr "Nombre de tours maximum atteint.", t)
  else
    let t := { t with current_round_number := t.current_round_number + 1 }
    let rnd := Round.new t.current_round_number now
    let sorted0 := t.sorted_player_ids_by_score shuf
    let oddRes : Except (PyStr × Tournament) (List PyStr × Round × Tournament) :=
      if sorted0.length % 2 = 1 then
        match sorted0.getLast? with
        | some exemptId =>
          match t.add_exempt_bye_by_id rnd exemptId with
          | .error e => .error (e, t)
          | .ok (rnd2, t2) => .ok (sorted0.dropLast, rnd2, t2)
        | none => .ok (sorted0, rnd, t)
      else .ok (sorted0, rnd, t)
    match oddRes with
    | .error e => .error e
    | .ok (ids, rnd, t) =>
      match pairLoop ids ids [] rnd t with
      | .error e => .error e
      | .ok (rnd, t) => .ok { t with rounds := t.rounds ++ [rnd] }

/-- Leader-id normalisation of `start_tiebreak_round`:
`str(pid).strip().upper()`, dropping empties and duplicates, keeping order. -/
def normalizeLeaderIds (l : List PyStr) : List PyStr :=
  l.foldl (fun acc pid =>
    let pid := pyUpper (pyStrip pid)
    if pid ≠ [] ∧ ¬ acc.contains pid then acc ++ [pid] else acc) []

/-- `for i in range(0, len(ids_norm), 2)` of `start_tiebreak_round`: pair
adjacent leaders, with no `remember_pair`. -/
def tiebreakPairs (t : Tournament) : Round → List PyStr →
    Except (PyStr × Tournament) Round
  | rnd, [] => .ok rnd
  | rnd, a :: b :: rest =>
    match t.get_player_by_id a with
    | none => .error (pystr "KeyError: player", t)
    | some pa =>
      match t.get_player_by_id b with
      | none => .error (pystr "KeyError: player", t)
      | some pb => tiebreakPairs t (rnd.add_match (Match.mk2 pa pb)) rest
  | _, [_] => .error (pystr "IndexError", t)

/-- `start_tiebreak_round(leader_ids)`. -/
def Tournament.start_tiebreak_round (t : Tournament) (leader_ids : List PyStr)
    (now : PyStr) (shuf : List PyStr → List PyStr) :
    Except (PyStr × Tournament) Tournament :=
  if leader_ids = [] then
    .error (pystr "Aucun departage necessaire : pas d egalite en tete.", t)
  else
    let idsNorm := normalizeLeaderIds leader_ids
    if idsNorm.length < 2 then
      .error (pystr "Departage inutile : un seul joueur est en tete.", t)
    else if idsNorm.any (fun pid => (t.get_player_by_id pid).isNone) then
      .error (pystr "Joueur inconnu dans ce tournoi", t)
    else
      let t := { t with current_round_number := t.current_round_number + 1 }
      let rnd := Round.new t.current_round_number now
      let ids2 := shuf idsNorm
      let oddRes : Except (PyStr × Tournament) (List PyStr × Round × Tournament) :=
        if ids2.length % 2 = 1 then
          match ids2.getLast? with
          | some byeId =>
            match t.add_exempt_bye_by_id rnd byeId with
            | .error e => .error (e, t)
            | .ok (rnd2, t2) => .ok (ids2.dropLast, rnd2, t2)
          | none => .ok (ids2, rnd, t)
        else .ok (ids2, rnd, t)
      match oddRes with
      | .error e => .error e
      | .ok (ids, rnd, t) =>
        match tiebreakPairs t rnd ids with
        | .error e => .error e
        | .ok rnd => .ok { t with rounds := t.rounds ++ [rnd] }

/-- The state embedded in an operation result: the new state on success, the
state at the moment the exception was raised on failure. -/
def stateOf (r : Except (PyStr × Tournament) Tournament) : Tournament :=
  match r with
  | .ok t => t
  | .error (_, t) => t

-- ---------------------------------------------------------------------
-- Tournament serialization (to_dict / from_dict)
-- ---------------------------------------------------------------------

/-- The keys of `Tournament.to_dict` (the domain of `from_dict` is restricted
to such images, which is the input the composed round-trip receives; the
`created_at` fallback key is never produced by `to_dict`). -/
structure TournamentData where
  name : PyStr
  location : PyStr
  start_date : PyStr
  end_date : PyStr
  started_at : PyStr
  finished_at : PyStr
  status : PyStr
  description : PyStr
  number_rounds : Int
  current_round_number : Int
  players : List Player
  rounds : List RoundData
  scores : List (PyStr × HalfPts)
  past_pairs : List (List PyStr)
  winner_id : PyStr
deriving DecidableEq, Repr

/-- `list(pair)` for a frozenset of ids: one element when the two ids
coincide, both otherwise (the iteration order of the Python set and of each
frozenset is unspecified; the model uses insertion order). -/
def pairToList (p : PyStr × PyStr) : List PyStr :=
  if p.1 = p.2 then [p.1] else [p.1, p.2]

def Tournament.to_dict (t : Tournament) : TournamentData :=
  { name := if t.repo_name ≠ [] then t.repo_name else t.name
    location := t.location, start_date := t.start_date, end_date := t.end_date
    started_at := t.started_at, finished_at := t.finished_at
    status := t.status, description := t.description
    number_rounds := t.number_rounds
    current_round_number := t.current_round_number
    players := t.players
    rounds := t.rounds.map Round.to_dict
    scores := t.scores
    past_pairs := t.past_pairs.map pairToList
    winner_id := t.winner_id }

/-- `{p.national_id: p for p in players}` followed by `dict.get`:
the last player with a given id wins. -/
def playerLookup (ps : List Player) (nid : PyStr) : Option Player :=
  ps.foldl (fun acc p => if p.national_id = nid then some p else acc) none

/-- One step of rebuilding `past_pairs` in `from_dict`: keep two-element
lists, re-adding to the (deduplicating) set. -/
def addPastPair (l : List (PyStr × PyStr)) : List PyStr → List (PyStr × PyStr)
  | [a, b] => if pairMem l a b then l else l ++ [(a, b)]
  | _ => l

/-- `Tournament.from_dict(data)`, on a `to_dict` image.  The validating
`Player.from_dict` runs at the date `today`; a `ValueError`/`KeyError` raised
while rebuilding players or rounds propagates. -/
def Tournament.from_dict (today : Date) (d : TournamentData) :
    Except PyStr Tournament :=
  -- start_date = data.get("start_date") or (data.get("created_at") or "")[:10]
  let start_date := if d.start_date ≠ [] then d.start_date else ([] : PyStr)
  let t0 := Tournament.new d.location start_date d.end_date d.description
    d.number_rounds
  let t0 := { t0 with repo_name := d.name, started_at := d.started_at
                      finished_at := d.finished_at
                      current_round_number := d.current_round_number }
  match d.players.mapM (Player.from_dict today) with
  | .error e => .error e
  | .ok ps =>
    let t0 := { t0 with players := ps }
    match d.rounds.mapM (Round.from_dict (playerLookup t0.players)) with
    | .error e => .error e
    | .ok rs =>
      .ok { t0 with rounds := rs
                    scores := d.scores
                    past_pairs := d.past_pairs.foldl addPastPair []
                    winner_id := d.winner_id }

/-- `Tournament.from_dict` under the intended player constructor (the one
difference is the `Player.from_dict` used to rebuild the roster). -/
def Tournament.from_dict_intended (today : Date) (d : TournamentData) :
    Except PyStr Tournament :=
  let start_date := if d.start_date ≠ [] then d.start_date else ([] : PyStr)
  let t0 := Tournament.new d.location start_date d.end_date d.description
    d.number_rounds
  let t0 := { t0 with repo_name := d.name, started_at := d.started_at
                      finished_at := d.finished_at
                      current_round_number := d.current_round_number }
  match d.players.mapM (Player.from_dict_intended today) with
  | .error e => .error e
  | .ok ps =>
    let t0 := { t0 with players := ps }
    match d.rounds.mapM (Round.from_dict (playerLookup t0.players)) with
    | .error e => .error e
    | .ok rs =>
      .ok { t0 with rounds := rs
                    scores := d.scores
                    past_pairs := d.past_pairs.foldl addPastPair []
                    winner_id := d.winner_id }

-- ---------------------------------------------------------------------
-- models/tournament_repository.py
-- ---------------------------------------------------------------------

/-- A stored tournament record: its `name` key plus the remaining keys,
kept opaque (`save_tournament` only ever reads `name`). -/
structure TRecord where
  name : PyStr
  rest : List (PyStr × PyStr)
deriving DecidableEq, Repr

/-- `(record.get("name") or "").strip().lower()`. -/
def normName (r : TRecord) : PyStr := pyLower (pyStrip r.name)

/-- The scan-and-replace loop of `save_tournament` for a non-empty normalized
name: replace the first record with the same normalized name in place, else
append. -/
def upsertByName (r : TRecord) : List TRecord → List TRecord
  | [] => [r]
  | x :: xs => if normName x = normName r then r :: xs else x :: upsertByName r xs

/-- `TournamentRepository.save_tournament(tournament)` acting on the stored
list (the file is rewritten from this list after each call). -/
def saveTournament (store : List TRecord) (r : TRecord) : List TRecord :=
  if normName r = [] then store ++ [r] else upsertByName r store

/-- `TournamentRepository.get_tournament_by_name(name)`. -/
def getTournamentByName (store : List TRecord) (nm : PyStr) : Option TRecord :=
  store.find? (fun t => normName t = pyLower (pyStrip nm))

-- ---------------------------------------------------------------------
-- controllers/main_controller.py : the progress inspector
-- ---------------------------------------------------------------------

/-- What `_tournament_progress_percent` reads from one match dict, with
`Option` for `dict.get` results (`none` = key absent or `null`). -/
structure PMatch where
  player2 : Option PyStr
  result1 : Option PyStr
  result2 : Option PyStr
  score1 : Option HalfPts
  score2 : Option HalfPts
deriving DecidableEq, Repr

structure PRound where
  end_time : PyStr
  «matches» : List PMatch
deriving DecidableEq, Repr

/-- The fields of a stored tournament dict read by `_is_started`,
`_is_finished` and `_tournament_progress_percent`. -/
structure PSnapshot where
  started_at : PyStr
  finished_at : PyStr
  status : PyStr
  current_round_number : Int
  number_rounds : Int
  rounds : List PRound
deriving DecidableEq, Repr

/-- `_is_started(t)`: truthy `started_at` or truthy `current_round_number`. -/
def isStartedD (s : PSnapshot) : Bool :=
  s.started_at ≠ [] || s.current_round_number ≠ 0

/-- `_is_finished(t)`: truthy `finished_at` or `status == "Terminé"`. -/
def isFinishedD (s : PSnapshot) : Bool :=
  s.finished_at ≠ [] || s.status = pystr "Terminé"

/-- The per-round closure test of `_tournament_progress_percent`:
`r.get("end_time")` truthy, or `matches` non-empty and every match has
`player2 is None`, or a non-`None` result, or both scores non-`None`. -/
def roundClosedD (r : PRound) : Bool :=
  r.end_time ≠ [] ||
  (!r.«matches».isEmpty &&
    r.«matches».all (fun m =>
      m.player2.isNone || m.result1.isSome || m.result2.isSome ||
      (m.score1.isSome && m.score2.isSome)))

/-- Python `round()` (no digits): round half to even, then `int()`. -/
def pyRound (q : ℚ) : Int :=
  let f := ⌊q⌋
  let frac := q - f
  if frac < 1 / 2 then f
  else if frac > 1 / 2 then f + 1
  else if f % 2 = 0 then f else f + 1

/-- `_tournament_progress_percent(t)` on a stored dict whose
`number_rounds` value is an `int` (as every `to_dict` image is). -/
def progressPercent (s : PSnapshot) : Int :=
  if isFinishedD s then 100
  else if ¬ isStartedD s then 0
  else
    let total : Int :=
      if s.number_rounds > 0 then s.number_rounds else s.rounds.length
    if total ≤ 0 then 0
    else
      let closed : Nat := (s.rounds.filter roundClosedD).length
      let pct := pyRound ((closed : ℚ) / (total : ℚ) * 100)
      let pct :=
        if total = 4 then
          if closed = 0 then 0 else if closed = 1 then 25
          else if closed = 2 then 50 else if closed = 3 then 75
          else if closed = 4 then 100 else pct
        else pct
      max 0 (min 100 pct)

/-- The view of a serialized tournament as a progress snapshot: every score
key of a `to_dict` image is present (`some`), whether or not the match was
ever scored. -/
def snapshotOfData (d : TournamentData) : PSnapshot :=
  { started_at := d.started_at, finished_at := d.finished_at
    status := d.status, current_round_number := d.current_round_number
    number_rounds := d.number_rounds
    rounds := d.rounds.map (fun r =>
      { end_time := r.end_time
        «matches» := r.«matches».map (fun m =>
          { player2 := m.player2, result1 := m.result1, result2 := m.result2
            score1 := some m.score1, score2 := some m.score2 }) }) }

-- ---------------------------------------------------------------------
-- Spec-side progress formula (written from the words of the specification,
-- for comparison with the implementation `progressPercent`)
-- ---------------------------------------------------------------------

/-- Spec §3: a match is scored iff it is exempt, or has a non-empty
`result1`, or has non-default numeric scores. -/
def specMatchScored (m : PMatch) : Bool :=
  m.player2.isNone ||
  (match m.result1 with | some r => r ≠ [] | none => false) ||
  !(m.score1.getD 0 = 0 && m.score2.getD 0 = 0)

/-- Spec §4.9 / claim C7: a round counts as closed exactly when it has an
`end_time` or every non-bye match in it is scored. -/
def specRoundClosed (r : PRound) : Bool :=
  r.end_time ≠ [] ||
  (r.«matches».filter (fun m => !m.player2.isNone)).all specMatchScored

/-- Claim C7's formula: 0 if not started, 100 if finished, else
`round(closed_rounds / number_rounds × 100)` with the spec's closed-round
criterion. -/
def specProgressPercent (s : PSnapshot) : Int :=
  if ¬ isStartedD s then 0
  else if isFinishedD s then 100
  else
    let closed : Nat := (s.rounds.filter specRoundClosed).length
    pyRound ((closed : ℚ) / (s.number_rounds : ℚ) * 100)

-- ---------------------------------------------------------------------
-- Reachable tournament states
-- ---------------------------------------------------------------------

/-- Replace match `j` of round `i` (the in-place mutation
`rnd.matches[j] = ...` performed through the engine's match objects). -/
def setMatchAt (t : Tournament) (i j : Nat) (m' : Match) : Tournament :=
  { t with rounds :=
      match t.rounds.get? i with
      | some r => t.rounds.set i { r with «matches» := r.«matches».set j m' }
      | none => t.rounds }

/-- Close round `i` (`rnd.end_time = datetime.now().isoformat(...)`). -/
def endRoundAt (t : Tournament) (i : Nat) (now : PyStr) : Tournament :=
  { t with rounds :=
      match t.rounds.get? i with
      | some r => t.rounds.set i (r.end_round now)
      | none => t.rounds }

/-- Roster players are treated as inputs of the tournament-level operations,
carrying the shape the validating constructor is designed to produce, at some
date no later than the current one.  (`playerNew` as written never returns a
player — see `playerNew_eq` — so this is the intended constructor.) -/
def PlayerFromCtor (d : Date) (p : Player) : Prop :=
  ∃ d0 ln fn bd nid mh tw,
    Date.le d0 d ∧ playerNewIntended d0 ln fn bd nid mh tw = .ok p

/-- Tournament states reachable through the public operations, at the current
date `d`.  Each randomised operation is quantified over the permutation the
shuffle produced; failed operations contribute no state here (the states
mutated-then-raised operations leave behind are examined separately). -/
inductive Reachable : Date → Tournament → Prop where
  | init (d : Date) (loc sd ed desc : PyStr) (nr : Int) :
      Reachable d (Tournament.new loc sd ed desc nr)
  | tick {d : Date} {t : Tournament} (d' : Date) (h : Date.le d d')
      (ht : Reachable d t) : Reachable d' t
  | add_player {d : Date} {t : Tournament} (p : Player) (t' : Tournament)
      (hp : PlayerFromCtor d p) (hok : t.add_player p = .ok t')
      (ht : Reachable d t) : Reachable d t'
  | add_player_id {d : Date} {t : Tournament} (nid : PyStr)
      (lookup : PyStr → Option Player) (p : Player) (t' : Tournament)
      (hl : lookup nid = some p) (hnid : p.national_id = nid)
      (hp : PlayerFromCtor d p)
      (hok : t.add_player_id nid lookup = .ok t') (ht : Reachable d t) :
      Reachable d t'
  | set_description {d : Date} {t : Tournament} (text : PyStr)
      (ht : Reachable d t) : Reachable d (t.set_description text)
  | mark_launched {d : Date} {t : Tournament} (now : PyStr)
      (ht : Reachable d t) : Reachable d (t.mark_launched d now)
  | mark_finished {d : Date} {t : Tournament} (now : PyStr)
      (ht : Reachable d t) : Reachable d (t.mark_finished d now)
  | set_winner {d : Date} {t : Tournament} (w : PyStr)
      (hw : t.compute_winner_id = some w) (ht : Reachable d t) :
      Reachable d { t with winner_id := w }
  | first_round {d : Date} {t : Tournament} (now : PyStr)
      (shufP : List Player → List Player) (t' : Tournament)
      (hperm : ∀ l, (shufP l).Perm l)
      (hok : t.start_first_round d now shufP = .ok t') (ht : Reachable d t) :
      Reachable d t'
  | next_round {d : Date} {t : Tournament} (now : PyStr)
      (shuf : List PyStr → List PyStr) (t' : Tournament)
      (hperm : ∀ l, (shuf l).Perm l)
      (hok : t.start_next_round now shuf = .ok t') (ht : Reachable d t) :
      Reachable d t'
  | tiebreak_round {d : Date} {t : Tournament} (leader_ids : List PyStr)
      (now : PyStr) (shuf : List PyStr → List PyStr) (t' : Tournament)
      (hperm : ∀ l, (shuf l).Perm l)
      (hok : t.start_tiebreak_round leader_ids now shuf = .ok t')
      (ht : Reachable d t) : Reachable d t'
  | update_scores {d : Date} {t : Tournament} (i : Nat) (r : Round)
      (hr : t.rounds.get? i = some r) (ht : Reachable d t) :
      Reachable d (t.update_scores_from_round r)
  | apply_points {d : Date} {t : Tournament} (i j : Nat) (r : Round) (m : Match)
      (hr : t.rounds.get? i = some r) (hm : r.«matches».get? j = some m)
      (ht : Reachable d t) : Reachable d (t.apply_match_points m)
  | rollback_points {d : Date} {t : Tournament} (i j : Nat) (r : Round) (m : Match)
      (hr : t.rounds.get? i = some r) (hm : r.«matches».get? j = some m)
      (ht : Reachable d t) : Reachable d (rollbackPoints t m)
  | score_match {d : Date} {t : Tournament} (i j : Nat) (r : Round)
      (m m' : Match) (code : PyStr)
      (hr : t.rounds.get? i = some r) (hm : r.«matches».get? j = some m)
      (hok : m.set_result_by_code code = .ok m') (ht : Reachable d t) :
      Reachable d (setMatchAt t i j m')
  | play_match {d : Date} {t : Tournament} (i j : Nat) (r : Round)
      (m m' : Match) (s1 s2 : HalfPts)
      (hr : t.rounds.get? i = some r) (hm : r.«matches».get? j = some m)
      (hok : m.play_match s1 s2 = .ok m') (ht : Reachable d t) :
      Reachable d (setMatchAt t i j m')
  | end_round {d : Date} {t : Tournament} (i : Nat) (now : PyStr)
      (ht : Reachable d t) : Reachable d (endRoundAt t i now)

-- ---------------------------------------------------------------------
-- Helper lemmas
-- ---------------------------------------------------------------------

theorem apply_match_points_past_pairs (t : Tournament) (m : Match) :
    (t.apply_match_points m).past_pairs = t.past_pairs := by
  unfold Tournament.apply_match_points
  cases m.player2 <;> rfl

theorem apply_match_points_players (t : Tournament) (m : Match) :
    (t.apply_match_points m).players = t.players := by
  unfold Tournament.apply_match_points
  cases m.player2 <;> rfl

theorem add_exempt_bye_ok_state (t : Tournament) (rnd : Round) (p : Player)
    (r' : Round × Tournament) (h : t.add_exempt_bye rnd p = .ok r') :
    r'.2.past_pairs = t.past_pairs := by
  unfold Tournament.add_exempt_bye at h
  cases hm : Match.new p none with
  | error e => simp only [hm] at h; cases h
  | ok m =>
    simp only [hm] at h
    cases hs : m.set_result_by_code (pystr "E") with
    | error e => simp only [hs] at h; cases h
    | ok m2 =>
      simp only [hs] at h
      cases h
      exact apply_match_points_past_pairs t m2

theorem add_exempt_bye_by_id_ok_state (t : Tournament) (rnd : Round) (pid : PyStr)
    (r' : Round × Tournament) (h : t.add_exempt_bye_by_id rnd pid = .ok r') :
    r'.2.past_pairs = t.past_pairs := by
  unfold Tournament.add_exempt_bye_by_id at h
  cases hp : t.get_player_by_id pid with
  | none => rw [hp] at h; cases h
  | some p => rw [hp] at h; exact add_exempt_bye_ok_state t rnd p r' h

theorem tiebreakPairs_error_state (t : Tournament) :
    ∀ (ids : List PyStr) (rnd : Round) (e : PyStr × Tournament),
      tiebreakPairs t rnd ids = .error e → e.2 = t
  | [], rnd, e, h => by simp [tiebreakPairs] at h
  | [a], rnd, e, h => by
    simp only [tiebreakPairs] at h
    cases h; rfl
  | a :: b :: rest, rnd, e, h => by
    simp only [tiebreakPairs] at h
    cases hpa : t.get_player_by_id a with
    | none => rw [hpa] at h; cases h; rfl
    | some pa =>
      rw [hpa] at h
      cases hpb : t.get_player_by_id b with
      | none => rw [hpb] at h; cases h; rfl
      | some pb =>
        rw [hpb] at h
        exact tiebreakPairs_error_state t rest _ e h

-- ---------------------------------------------------------------------
-- C1
-- ---------------------------------------------------------------------

/-- C1: the spec requires every round built from an odd number of active
participants to contain one bye match with `score1 == 1.0`,
`result1 == "exempt"`, its point applied immediately.  The code cannot do
this: `MATCH_RESULT_POINTS` has no `"exempt"` key and `MATCH_RESULT_CODES`
has no `"E"` key, so `Match(player, None)` (hence `add_exempt_bye`, hence
every odd-roster round creation) raises `KeyError` instead. -/
theorem C1_exempt_bye_key_error :
    MATCH_RESULT_POINTS (pystr "exempt") = none ∧
    MATCH_RESULT_CODES (pystr "E") = none ∧
    (∀ p : Player, Match.new p none = .error (pystr "KeyError: exempt")) ∧
    (∀ (t : Tournament) (rnd : Round) (p : Player),
      t.add_exempt_bye rnd p = .error (pystr "KeyError: exempt")) := by
  refine ⟨rfl, rfl, fun p => rfl, fun t rnd p => rfl⟩

-- ---------------------------------------------------------------------
-- C2
-- ---------------------------------------------------------------------

/-- C2: the claim says `set_result_by_code` applies the exempt outcome for
code `E` (after trimming/uppercasing) and whenever `player2` is absent.  In
the code, `"E"` is missing from `MATCH_RESULT_CODES`, so code `E` (in any
spacing/case) fails with the invalid-code error instead; and on a bye match
every valid code V/D/N runs into `_auto_set_exempt`, which raises `KeyError`
because `MATCH_RESULT_POINTS` has no `"exempt"` entry. -/
theorem C2_set_result_by_code_E_rejected :
    (∀ m : Match,
      m.set_result_by_code (pystr "E") = .error (pystr "Code resultat invalide.") ∧
      m.set_result_by_code (pystr " e ") = .error (pystr "Code resultat invalide.")) ∧
    (∀ p : Player,
      (Match.mk p none 0 0 none none).set_result_by_code (pystr "V") =
        .error (pystr "KeyError: exempt")) := by
  exact ⟨fun m => ⟨rfl, rfl⟩, fun p => rfl⟩

-- ---------------------------------------------------------------------
-- C8
-- ---------------------------------------------------------------------

/-- C8: `start_tiebreak_round` never adds a pair to `past_pairs` — whether it
succeeds or fails, the state it leaves behind carries exactly the original
`past_pairs` set. -/
theorem C8_tiebreak_preserves_past_pairs (t : Tournament)
    (leaders : List PyStr) (now : PyStr) (shuf : List PyStr → List PyStr) :
    (stateOf (t.start_tiebreak_round leaders now shuf)).past_pairs =
      t.past_pairs := by
  unfold Tournament.start_tiebreak_round
  dsimp only
  split
  · rfl
  · split
    · rfl
    · split
      · rfl
      · split
        · next e heq =>
          -- the odd-length bye branch raised
          split at heq
          · split at heq
            · split at heq
              · cases heq; rfl
              · cases heq
            · cases heq
          · cases heq
        · next ids rnd2 t2 heq =>
          -- the odd branch succeeded (or the list was even): t2's past_pairs
          have ht2 : t2.past_pairs = t.past_pairs := by
            split at heq
            · split at heq
              · split at heq
                · cases heq
                · next r2 hbye =>
                  cases heq
                  exact add_exempt_bye_by_id_ok_state _ _ _ _ hbye
              · cases heq; rfl
            · cases heq; rfl
          split
          · next e3 hpairs =>
            simp only [stateOf]
            rw [tiebreakPairs_error_state _ _ _ _ hpairs]
            exact ht2
          · next rnd3 hpairs =>
            simpa only [stateOf] using ht2

-- ---------------------------------------------------------------------
-- C9
-- ---------------------------------------------------------------------

/-- C9: with registration open and an id not yet on the roster, `add_player`
appends the player and initialises `scores[national_id]` to 0.0, while
`add_player_id` appends the looked-up player without touching the ledger. -/
theorem C9_add_player_ledger (t : Tournament) (p : Player)
    (hopen : t.current_round_number = 0)
    (hnew : t.has_player p.national_id = false) :
    t.add_player p =
      .ok { t with players := t.players ++ [p]
                   scores := dictSet t.scores p.national_id 0 } ∧
    (∀ (nid : PyStr) (lookup : PyStr → Option Player) (q : Player),
      lookup nid = some q → t.has_player nid = false →
      t.add_player_id nid lookup = .ok { t with players := t.players ++ [q] }) := by
  constructor
  · simp [Tournament.add_player, Tournament.registration_open, hopen, hnew]
  · intro nid lookup q hl hnp
    simp [Tournament.add_player_id, Tournament.registration_open, hopen, hnp, hl]

def witnessPlayerA : Player :=
  { last_name := pystr "Aa", first_name := pystr "Bb"
    birthdate := pystr "1990-01-01", national_id := pystr "AB12345"
    date_enrolled := pystr "2025-01-01", match_history := [], tournaments_won := 0 }

def witnessPlayerB : Player :=
  { witnessPlayerA with national_id := pystr "CD11111" }

theorem C9_add_player_ledger_witness :
    (Tournament.new (pystr "X") [] [] [] 4).add_player witnessPlayerA =
      .ok { Tournament.new (pystr "X") [] [] [] 4 with
              players := [witnessPlayerA]
              scores := [(witnessPlayerA.national_id, 0)] } ∧
    (Tournament.new (pystr "X") [] [] [] 4).add_player_id (pystr "CD11111")
        (fun n => if n = pystr "CD11111" then some witnessPlayerB else none) =
      .ok { Tournament.new (pystr "X") [] [] [] 4 with players := [witnessPlayerB] } := by
  have h := C9_add_player_ledger (Tournament.new (pystr "X") [] [] [] 4)
    witnessPlayerA rfl (by decide)
  exact ⟨h.1, h.2 (pystr "CD11111") _ witnessPlayerB (by decide) (by decide)⟩

-- ---------------------------------------------------------------------
-- C10
-- ---------------------------------------------------------------------

/-- Extend the ledger with an explicit 0.0 entry for every roster player whose
id is missing from it. -/
def totalizeScores (sc : List (PyStr × HalfPts)) (ps : List Player) : List (PyStr × HalfPts) :=
  ps.foldl (fun sc p =>
    if sc.any (fun kv => kv.1 = p.national_id) then sc
    else sc ++ [(p.national_id, 0)]) sc

theorem dictGet_append_zero (sc : List (PyStr × HalfPts)) (a k : PyStr) :
    dictGet (sc ++ [(a, 0)]) k 0 = dictGet sc k 0 := by
  induction sc with
  | nil =>
    unfold dictGet
    simp only [List.nil_append, List.find?]
    by_cases h : a = k <;> simp [h]
  | cons kv rest ih =>
    unfold dictGet at *
    simp only [List.cons_append, List.find?]
    by_cases h : kv.1 = k
    · simp [h]
    · simp [h]
      simpa using ih

theorem dictGet_totalize (ps : List Player) :
    ∀ (sc : List (PyStr × HalfPts)) (k : PyStr),
      dictGet (totalizeScores sc ps) k 0 = dictGet sc k 0 := by
  induction ps with
  | nil => intro sc k; rfl
  | cons p rest ih =>
    intro sc k
    show dictGet (totalizeScores
      (if sc.any (fun kv => kv.1 = p.national_id) then sc
       else sc ++ [(p.national_id, 0)]) rest) k 0 = dictGet sc k 0
    rw [ih]
    by_cases h : sc.any (fun kv => kv.1 = p.national_id) <;>
      simp [h, dictGet_append_zero]

/-- C10: `tied_leaders` is `[]` on an empty roster (hence no first-place tie
and no winner), and roster players missing from the ledger are treated as
scoring 0.0: making those zeros explicit changes nothing. -/
theorem C10_tied_leaders_empty_and_default (t : Tournament) :
    (t.players = [] → t.tied_leaders = [] ∧ t.have_first_place_tie = false ∧
      t.compute_winner_id = none) ∧
    ({ t with scores := totalizeScores t.scores t.players }).tied_leaders =
      t.tied_leaders := by
  constructor
  · intro h
    refine ⟨?_, ?_, ?_⟩ <;>
      simp [Tournament.tied_leaders, Tournament.have_first_place_tie,
        Tournament.compute_winner_id, h]
  · show Tournament.tied_leaders _ = Tournament.tied_leaders _
    unfold Tournament.tied_leaders
    rcases hp : t.players with _ | ⟨p0, rest⟩
    · rfl
    · simp only [dictGet_totalize]

theorem C10_tied_leaders_witness :
    ((Tournament.new (pystr "P") [] [] [] 4).tied_leaders = [] ∧
     (Tournament.new (pystr "P") [] [] [] 4).have_first_place_tie = false ∧
     (Tournament.new (pystr "P") [] [] [] 4).compute_winner_id = none) ∧
    ({ Tournament.new (pystr "P") [] [] [] 4 with
        players := [witnessPlayerA]
        scores := totalizeScores [] [witnessPlayerA] }).tied_leaders =
      ({ Tournament.new (pystr "P") [] [] [] 4 with
          players := [witnessPlayerA] }).tied_leaders := by
  refine ⟨(C10_tied_leaders_empty_and_default _).1 rfl, ?_⟩
  exact (C10_tied_leaders_empty_and_default
    { Tournament.new (pystr "P") [] [] [] 4 with players := [witnessPlayerA] }).2

-- ---------------------------------------------------------------------
-- C6
-- ---------------------------------------------------------------------

theorem upsertByName_no_match (r : TRecord) :
    ∀ store : List TRecord, (∀ x ∈ store, normName x ≠ normName r) →
      upsertByName r store = store ++ [r] := by
  intro store
  induction store with
  | nil => intro _; rfl
  | cons x xs ih =>
    intro h
    simp only [upsertByName, if_neg (h x (List.mem_cons_self x xs))]
    rw [ih (fun y hy => h y (List.mem_cons_of_mem x hy))]
    rfl

theorem upsertByName_found (r : TRecord) :
    ∀ (pre : List TRecord) (x : TRecord) (post : List TRecord),
      normName x = normName r → (∀ y ∈ pre, normName y ≠ normName r) →
      upsertByName r (pre ++ x :: post) = pre ++ r :: post := by
  intro pre
  induction pre with
  | nil =>
    intro x post hx _
    rw [List.nil_append]
    simp only [upsertByName, if_pos hx]
    rfl
  | cons y ys ih =>
    intro x post hx hpre
    rw [List.cons_append]
    simp only [upsertByName, if_neg (hpre y (List.mem_cons_self y ys))]
    rw [ih x post hx (fun z hz => hpre z (List.mem_cons_of_mem y hz))]
    rfl

theorem upsertByName_idem (r : TRecord) :
    ∀ store : List TRecord,
      upsertByName r (upsertByName r store) = upsertByName r store := by
  intro store
  induction store with
  | nil =>
    show upsertByName r [r] = [r]
    simp [upsertByName]
  | cons x xs ih =>
    by_cases h : normName x = normName r
    · show upsertByName r (upsertByName r (x :: xs)) = upsertByName r (x :: xs)
      simp only [upsertByName, if_pos h]
      simp [upsertByName]
    · show upsertByName r (upsertByName r (x :: xs)) = upsertByName r (x :: xs)
      simp only [upsertByName, if_neg h]
      rw [ih]

/-- C6 (counterexample): for a record whose normalized name is empty,
`save_tournament` appends unconditionally, so saving the same record twice
duplicates it — the claimed unconditional idempotence fails. -/
theorem C6_counterexample :
    saveTournament (saveTournament [] ⟨[], []⟩) ⟨[], []⟩ ≠
      saveTournament [] ⟨[], []⟩ := by decide

/-- C6 (amended): `save_tournament` with a non-empty normalized name replaces
the first record with the same normalized name in place (preserving the
other records and the order) or appends when none matches, and for such
records saving twice equals saving once; a record with an empty normalized
name is appended (without idempotence). -/
theorem C6_save_tournament_upsert (store : List TRecord) (r : TRecord) :
    (normName r = [] → saveTournament store r = store ++ [r]) ∧
    (normName r ≠ [] →
      ((∀ x ∈ store, normName x ≠ normName r) →
        saveTournament store r = store ++ [r]) ∧
      (∀ (pre : List TRecord) (x : TRecord) (post : List TRecord),
        store = pre ++ x :: post → normName x = normName r →
        (∀ y ∈ pre, normName y ≠ normName r) →
        saveTournament store r = pre ++ r :: post) ∧
      saveTournament (saveTournament store r) r = saveTournament store r) := by
  constructor
  · intro h; simp [saveTournament, h]
  · intro h
    refine ⟨?_, ?_, ?_⟩
    · intro hall
      simp only [saveTournament, if_neg h]
      exact upsertByName_no_match r store hall
    · intro pre x post hsplit hx hpre
      simp only [saveTournament, if_neg h, hsplit]
      exact upsertByName_found r pre x post hx hpre
    · simp only [saveTournament, if_neg h]
      exact upsertByName_idem r store

theorem C6_save_tournament_upsert_witness :
    saveTournament [⟨pystr "b", []⟩, ⟨pystr "A ", []⟩, ⟨pystr "c", []⟩]
        ⟨pystr "a", []⟩ =
      [⟨pystr "b", []⟩, ⟨pystr "a", []⟩, ⟨pystr "c", []⟩] ∧
    saveTournament
        (saveTournament [⟨pystr "b", []⟩, ⟨pystr "A ", []⟩, ⟨pystr "c", []⟩]
          ⟨pystr "a", []⟩) ⟨pystr "a", []⟩ =
      saveTournament [⟨pystr "b", []⟩, ⟨pystr "A ", []⟩, ⟨pystr "c", []⟩]
        ⟨pystr "a", []⟩ ∧
    saveTournament [] (⟨[], []⟩ : TRecord) = [⟨[], []⟩] := by
  have h := C6_save_tournament_upsert
    [⟨pystr "b", []⟩, ⟨pystr "A ", []⟩, ⟨pystr "c", []⟩] ⟨pystr "a", []⟩
  have h2 := (h.2 (by decide))
  refine ⟨?_, h2.2.2, (C6_save_tournament_upsert [] ⟨[], []⟩).1 rfl⟩
  exact h2.2.1 [⟨pystr "b", []⟩] ⟨pystr "A ", []⟩ [⟨pystr "c", []⟩] rfl
    (by decide) (by decide)

-- ---------------------------------------------------------------------
-- A concrete tournament pipeline (shared by several claims)
-- ---------------------------------------------------------------------

def sdate : Date := ⟨2025, 10, 12⟩

def sampleId (i : Nat) : PyStr := pystr "AA0000" ++ [48 + i]

def samplePlayer (i : Nat) : Player :=
  { last_name := pystr "Aa", first_name := pystr "Aa"
    birthdate := pystr "1990-01-01", national_id := sampleId i
    date_enrolled := pystr "2025-10-12", match_history := []
    tournaments_won := 0 }

/-- Registration states: `tStage n` has players 1..n added. -/
def tStage : Nat → Tournament
  | 0 => Tournament.new (pystr "Paris") [] [] [] 4
  | n + 1 => stateOf ((tStage n).add_player (samplePlayer (n + 1)))

theorem samplePlayer_ctor (i : Nat) (h : i ≤ 9) :
    PlayerFromCtor sdate (samplePlayer i) := by
  refine ⟨sdate, pystr "Aa", pystr "Aa", pystr "1990-01-01", sampleId i, [], 0,
    Or.inr rfl, ?_⟩
  interval_cases i <;> decide

theorem reach_tStage : ∀ n, n ≤ 9 → Reachable sdate (tStage n)
  | 0, _ => Reachable.init sdate _ _ _ _ _
  | n + 1, h =>
    Reachable.add_player (samplePlayer (n + 1)) (tStage (n + 1))
      (samplePlayer_ctor (n + 1) h)
      (by
        have h8 : n ≤ 8 := by omega
        interval_cases n <;> decide)
      (reach_tStage n (Nat.le_of_succ_le h))

/-- Round 1 of the 8-player tournament, shuffled by the identity. -/
def t8r1 : Tournament :=
  stateOf ((tStage 8).start_first_round sdate (pystr "RT1") id)

theorem reach_t8r1 : Reachable sdate t8r1 :=
  Reachable.first_round (pystr "RT1") id t8r1 (fun l => List.Perm.refl l)
    (by decide) (reach_tStage 8 (by omega))

-- ---------------------------------------------------------------------
-- C7
-- ---------------------------------------------------------------------

theorem pyRound_intCast (n : ℤ) : pyRound ((n : ℤ) : ℚ) = n := by
  unfold pyRound
  rw [Int.floor_intCast]
  norm_num

/-- The claim's formula with only the closed-round criterion replaced by the
one the code implements (`roundClosedD`), and the result clamped to
`[0, 100]` as the code does. -/
def specProgressPercentAmended (s : PSnapshot) : Int :=
  if isFinishedD s then 100
  else if ¬ isStartedD s then 0
  else
    max 0 (min 100 (pyRound
      (((s.rounds.filter roundClosedD).length : ℚ) / (s.number_rounds : ℚ) * 100)))

theorem snapLadder (c : Nat) :
    (if c = 0 then (0 : ℤ) else if c = 1 then 25
     else if c = 2 then 50 else if c = 3 then 75
     else if c = 4 then 100 else pyRound ((c : ℚ) / 4 * 100)) =
      pyRound ((c : ℚ) / 4 * 100) := by
  have hc : ((c : ℚ) / 4 * 100) = (((25 * c : ℤ) : ℤ) : ℚ) := by push_cast; ring
  rw [hc, pyRound_intCast]
  match c with
  | 0 => norm_num
  | 1 => norm_num
  | 2 => norm_num
  | 3 => norm_num
  | 4 => norm_num
  | n + 5 =>
    rw [if_neg (by omega), if_neg (by omega), if_neg (by omega),
      if_neg (by omega), if_neg (by omega)]

/-- C7 (counterexample): a freshly started 8-player tournament saved right
after round 1 was created: no match is scored (all scores at the 0.0 default,
results `null`), yet the stored dict carries both score keys for every match,
so the code counts round 1 as closed and reports 25%, while the claim's
formula (round closed iff `end_time` or every non-bye match scored) says 0%. -/
theorem C7_counterexample :
    Reachable sdate t8r1 ∧
    progressPercent (snapshotOfData t8r1.to_dict) = 25 ∧
    specProgressPercent (snapshotOfData t8r1.to_dict) = 0 := by
  refine ⟨reach_t8r1, by decide, ?_⟩
  unfold specProgressPercent
  rw [if_neg (not_not_intro (by decide : isStartedD (snapshotOfData t8r1.to_dict) = true)),
    if_neg (by decide : ¬ isFinishedD (snapshotOfData t8r1.to_dict) = true)]
  dsimp only
  rw [show ((snapshotOfData t8r1.to_dict).rounds.filter specRoundClosed).length = 0
      from by decide]
  rw [show (((0 : ℕ) : ℚ) / ((snapshotOfData t8r1.to_dict).number_rounds : ℚ) * 100) =
      (((0 : ℤ) : ℤ) : ℚ) from by norm_num]
  exact pyRound_intCast 0

/-- C7 (amended): for a snapshot with a positive integer `number_rounds`,
the progress is 100 if finished, 0 if not started, and otherwise
`round(closed/number_rounds × 100)` clamped to `[0, 100]`, where a round
counts as closed exactly when it has an `end_time` or a non-empty match list
in which every match is a bye, has a non-null result, or carries both score
keys non-null; for `number_rounds == 4` the result lies in
`{0, 25, 50, 75, 100}`. -/
theorem C7_progress_percent (s : PSnapshot) (h : 0 < s.number_rounds) :
    progressPercent s = specProgressPercentAmended s ∧
    (s.number_rounds = 4 →
      progressPercent s ∈ ({0, 25, 50, 75, 100} : Set ℤ)) := by
  have h44 : ((4 : ℤ) : ℚ) = (4 : ℚ) := by norm_num
  have key : progressPercent s = specProgressPercentAmended s := by
    unfold progressPercent specProgressPercentAmended
    by_cases hf : isFinishedD s = true
    · rw [if_pos hf, if_pos hf]
    · rw [if_neg hf, if_neg hf]
      by_cases hs : isStartedD s = true
      · rw [if_neg (not_not_intro hs), if_neg (not_not_intro hs)]
        dsimp only
        rw [if_pos h, if_neg (by omega : ¬ s.number_rounds ≤ (0 : ℤ))]
        by_cases h4 : s.number_rounds = 4
        · rw [h4, h44]
          rw [if_pos rfl]
          exact congrArg (fun z => max 0 (min 100 z)) (snapLadder _)
        · rw [if_neg h4]
      · rw [if_pos hs, if_pos hs]
  refine ⟨key, ?_⟩
  intro h4
  rw [key]
  unfold specProgressPercentAmended
  by_cases hf : isFinishedD s = true
  · rw [if_pos hf]; norm_num [Set.mem_insert_iff]
  · rw [if_neg hf]
    by_cases hs : isStartedD s = true
    · rw [if_neg (not_not_intro hs), h4, h44]
      rw [show (((s.rounds.filter roundClosedD).length : ℚ) / 4 * 100) =
          (((25 * (s.rounds.filter roundClosedD).length : ℤ) : ℤ) : ℚ)
          from by push_cast; ring]
      rw [pyRound_intCast]
      rcases Nat.lt_or_ge (s.rounds.filter roundClosedD).length 4 with hlt | hge
      · set c := (s.rounds.filter roundClosedD).length with hcdef
        interval_cases c <;> norm_num [Set.mem_insert_iff]
      · rw [min_eq_left (by omega :
          (100 : ℤ) ≤ 25 * ((s.rounds.filter roundClosedD).length : ℤ))]
        norm_num [Set.mem_insert_iff]
    · rw [if_pos hs]; norm_num [Set.mem_insert_iff]

theorem C7_progress_percent_witness :
    progressPercent (snapshotOfData t8r1.to_dict) =
      specProgressPercentAmended (snapshotOfData t8r1.to_dict) ∧
    progressPercent (snapshotOfData t8r1.to_dict) ∈
      ({0, 25, 50, 75, 100} : Set ℤ) := by
  have h := C7_progress_percent (snapshotOfData t8r1.to_dict) (by decide)
  exact ⟨h.1, h.2 (by decide)⟩

-- ---------------------------------------------------------------------
-- C4: concrete counterexample pipeline (rounds 1 and 2)
-- ---------------------------------------------------------------------

/-- The round-1 match between players `a` and `b` after it was scored a draw
(`set_result_by_code("N")`: labels `nul`/`nul`, scores 0.5 each). -/
def drawn (a b : Nat) : Match :=
  { Match.mk2 (samplePlayer a) (samplePlayer b) with
      result1 := some (pystr "nul"), result2 := some (pystr "nul")
      score1 := 1, score2 := 1 }

/-- Round 1 of the 8-player tournament with every match scored a draw. -/
def t8s : Tournament :=
  setMatchAt (setMatchAt (setMatchAt (setMatchAt t8r1 0 0 (drawn 1 2))
    0 1 (drawn 3 4)) 0 2 (drawn 5 6)) 0 3 (drawn 7 8)

/-- The scored round-1 object inside `t8s`. -/
def r1s : Round :=
  { round_number := 1, start_time := pystr "RT1", end_time := []
    «matches» := [drawn 1 2, drawn 3 4, drawn 5 6, drawn 7 8] }

/-- Ledger updated from the drawn round 1: everyone at 0.5 points. -/
def t8u : Tournament := t8s.update_scores_from_round r1s

/-- Round 1 of `t8r1` with the given match list. -/
def r1u (ms : List Match) : Round :=
  { round_number := 1, start_time := pystr "RT1", end_time := [], «matches» := ms }

theorem reach_t8u : Reachable sdate t8u := by
  have h1 : Reachable sdate (setMatchAt t8r1 0 0 (drawn 1 2)) :=
    Reachable.score_match 0 0
      (r1u [Match.mk2 (samplePlayer 1) (samplePlayer 2),
            Match.mk2 (samplePlayer 3) (samplePlayer 4),
            Match.mk2 (samplePlayer 5) (samplePlayer 6),
            Match.mk2 (samplePlayer 7) (samplePlayer 8)])
      (Match.mk2 (samplePlayer 1) (samplePlayer 2))
      (drawn 1 2) (pystr "N") (by decide) (by decide) (by decide) reach_t8r1
  have h2 : Reachable sdate (setMatchAt (setMatchAt t8r1 0 0 (drawn 1 2)) 0 1
      (drawn 3 4)) :=
    Reachable.score_match 0 1
      (r1u [drawn 1 2,
            Match.mk2 (samplePlayer 3) (samplePlayer 4),
            Match.mk2 (samplePlayer 5) (samplePlayer 6),
            Match.mk2 (samplePlayer 7) (samplePlayer 8)])
      (Match.mk2 (samplePlayer 3) (samplePlayer 4))
      (drawn 3 4) (pystr "N") (by decide) (by decide) (by decide) h1
  have h3 : Reachable sdate (setMatchAt (setMatchAt (setMatchAt t8r1 0 0
      (drawn 1 2)) 0 1 (drawn 3 4)) 0 2 (drawn 5 6)) :=
    Reachable.score_match 0 2
      (r1u [drawn 1 2, drawn 3 4,
            Match.mk2 (samplePlayer 5) (samplePlayer 6),
            Match.mk2 (samplePlayer 7) (samplePlayer 8)])
      (Match.mk2 (samplePlayer 5) (samplePlayer 6))
      (drawn 5 6) (pystr "N") (by decide) (by decide) (by decide) h2
  have h4 : Reachable sdate t8s :=
    Reachable.score_match 0 3
      (r1u [drawn 1 2, drawn 3 4, drawn 5 6,
            Match.mk2 (samplePlayer 7) (samplePlayer 8)])
      (Match.mk2 (samplePlayer 7) (samplePlayer 8))
      (drawn 7 8) (pystr "N") (by decide) (by decide) (by decide) h3
  exact Reachable.update_scores 0 r1s (by decide) h4

/-- A legal outcome of the in-bucket shuffle for round 2: all eight players
sit in one 0.5-score bucket, and the shuffle emits them in the order
1, 2, 5, 3, 6, 4, 7, 8. -/
def shufC4 (l : List PyStr) : List PyStr :=
  if l = [sampleId 1, sampleId 2, sampleId 3, sampleId 4,
          sampleId 5, sampleId 6, sampleId 7, sampleId 8] then
    [sampleId 1, sampleId 2, sampleId 5, sampleId 3,
     sampleId 6, sampleId 4, sampleId 7, sampleId 8]
  else l

theorem shufC4_perm : ∀ l, (shufC4 l).Perm l := by
  intro l
  unfold shufC4
  split
  · next hl => rw [hl]; decide
  · exact List.Perm.refl l

/-- Round 2 as produced by `start_next_round` under that shuffle. -/
def t8r2 : Tournament := stateOf (t8u.start_next_round (pystr "RT2") shufC4)

/-- `pairing` is a complete rematch-free pairing of `ids`: its pairs cover
`ids` exactly and none of them is in `past`. -/
def RematchFreePairing (past : List (PyStr × PyStr)) (ids : List PyStr)
    (pairing : List (PyStr × PyStr)) : Prop :=
  ((pairing.map (fun p => [p.1, p.2])).flatten).Perm ids ∧
  ∀ p ∈ pairing, pairMem past p.1 p.2 = false

instance (past : List (PyStr × PyStr)) (ids : List PyStr)
    (pairing : List (PyStr × PyStr)) :
    Decidable (RematchFreePairing past ids pairing) := by
  unfold RematchFreePairing; infer_instance

/-- C4 (counterexample): from the reachable state `t8u` (8 players, round 1
all drawn, so one score bucket), `start_next_round` under the legal shuffle
order 1,2,5,3,6,4,7,8 pairs greedily 1–5, 2–3, 6–4 and then must relax the
rematch constraint and replay 7–8, a pair of `past_pairs` — although the
rematch-free complete pairing (1,3),(2,4),(5,7),(6,8) of the same sorted
participant list existed.  This falsifies the claim as stated. -/
theorem C4_counterexample :
    Reachable sdate t8u ∧
    t8u.start_next_round (pystr "RT2") shufC4 = .ok t8r2 ∧
    t8r2.current_round_number = 2 ∧
    (∃ r2, t8r2.rounds.get? 1 = some r2 ∧
      Match.mk2 (samplePlayer 7) (samplePlayer 8) ∈ r2.«matches») ∧
    pairMem t8u.past_pairs (sampleId 7) (sampleId 8) = true ∧
    RematchFreePairing t8u.past_pairs
      (({ t8u with current_round_number := 2 }).sorted_player_ids_by_score shufC4)
      [(sampleId 1, sampleId 3), (sampleId 2, sampleId 4),
       (sampleId 5, sampleId 7), (sampleId 6, sampleId 8)] := by
  refine ⟨reach_t8u, by decide, by decide, ⟨?_, ?_, ?_⟩⟩
  · exact ⟨stateOf (t8u.start_next_round (pystr "RT2") shufC4)
      |>.rounds.getLast?.getD (Round.new 0 []), by decide, by decide⟩
  · decide
  · decide

theorem pairMem_remember (t : Tournament) (x y a b : PyStr)
    (h : pairMem t.past_pairs a b = true) :
    pairMem (t.remember_pair x y).past_pairs a b = true := by
  unfold Tournament.remember_pair
  split
  · exact h
  · show pairMem (t.past_pairs ++ [(x, y)]) a b = true
    unfold pairMem at *
    rw [List.any_append]
    simp [h]

theorem find?_pred {α : Type _} (p : α → Bool) :
    ∀ (l : List α) (a : α), l.find? p = some a → p a = true
  | [], _, h => by cases h
  | x :: xs, a, h => by
    by_cases hx : p x = true
    · rw [List.find?_cons_of_pos _ hx] at h
      cases h
      exact hx
    · rw [List.find?_cons_of_neg _ (by simpa using hx)] at h
      exact find?_pred p xs a h

theorem get_player_by_id_nid {t : Tournament} {nid : PyStr} {p : Player}
    (h : t.get_player_by_id nid = some p) : p.national_id = nid := by
  unfold Tournament.get_player_by_id at h
  exact of_decide_eq_true
    (find?_pred (fun q => decide (q.national_id = nid)) t.players p h)

theorem find_partner_some_facts {t : Tournament} {p1 : PyStr} {all used : List PyStr}
    {p2 : PyStr} (h : t.find_partner p1 all used = some p2) :
    used.contains p2 = false ∧ pairMem t.past_pairs p1 p2 = false := by
  unfold Tournament.find_partner at h
  cases hs : suffixAfterFirst all p1 with
  | none => rw [hs] at h; cases h
  | some suf =>
    rw [hs] at h
    have hp := find?_pred _ _ _ h
    rw [Bool.and_eq_true] at hp
    exact ⟨by simpa using hp.1, by simpa using hp.2⟩

/-- The guarantee the pairing loop actually provides: every match it creates
either avoids the (current) `past_pairs`, or was created by the relaxed
fallback at a moment when `find_partner` found no unused rematch-free
successor for its first player. -/
theorem pairLoop_rematch (all : List PyStr) :
    ∀ (rest used : List PyStr) (rnd : Round) (t : Tournament)
      (rnd' : Round) (t' : Tournament),
      pairLoop all rest used rnd t = .ok (rnd', t') →
      ∀ m ∈ rnd'.«matches», m ∈ rnd.«matches» ∨
        ∃ (p2 : Player) (tMid : Tournament) (usedMid : List PyStr),
          m.player2 = some p2 ∧
          (∀ a b, pairMem t.past_pairs a b = true →
            pairMem tMid.past_pairs a b = true) ∧
          (pairMem tMid.past_pairs m.player1.national_id p2.national_id = false ∨
            (usedMid.contains m.player1.national_id = false ∧
             usedMid.contains p2.national_id = false ∧
             tMid.find_partner m.player1.national_id all usedMid = none))
  | [], used, rnd, t, rnd', t', h, m, hm => by
    simp only [pairLoop] at h
    injection h with h2
    injection h2 with h3 h4
    subst h3
    exact Or.inl hm
  | p1 :: rest, used, rnd, t, rnd', t', h, m, hm => by
    simp only [pairLoop] at h
    by_cases hc : used.contains p1 = true
    · rw [if_pos hc] at h
      exact pairLoop_rematch all rest used rnd t rnd' t' h m hm
    · rw [if_neg hc] at h
      cases hfp : t.find_partner p1 all used with
      | some p2 =>
        simp only [hfp] at h
        cases hl1 : t.get_player_by_id p1 with
        | none => simp only [hl1] at h; cases h
        | some pl1 =>
          simp only [hl1] at h
          cases hl2 : t.get_player_by_id p2 with
          | none => simp only [hl2] at h; cases h
          | some pl2 =>
            simp only [hl2] at h
            rcases pairLoop_rematch all rest (used ++ [p1, p2])
                (rnd.add_match (Match.mk2 pl1 pl2)) (t.remember_pair p1 p2)
                rnd' t' h m hm with
              hin | ⟨p2', tMid, usedMid, hp2', hmono, hdisj⟩
            · rcases List.mem_append.1 hin with hold | hnew
              · exact Or.inl hold
              · have hm2 : m = Match.mk2 pl1 pl2 := by simpa using hnew
                refine Or.inr ⟨pl2, t, used, by rw [hm2]; rfl,
                  fun a b hab => hab, Or.inl ?_⟩
                rw [hm2]
                show pairMem t.past_pairs pl1.national_id pl2.national_id = false
                rw [get_player_by_id_nid hl1, get_player_by_id_nid hl2]
                exact (find_partner_some_facts hfp).2
            · exact Or.inr ⟨p2', tMid, usedMid, hp2',
                fun a b hab => hmono a b (pairMem_remember t p1 p2 a b hab), hdisj⟩
      | none =>
        simp only [hfp] at h
        cases hfb : rest.find? (fun pid => !used.contains pid && !(pid == p1)) with
        | none =>
          simp only [hfb] at h
          exact pairLoop_rematch all rest used rnd t rnd' t' h m hm
        | some p2 =>
          simp only [hfb] at h
          cases hl1 : t.get_player_by_id p1 with
          | none => simp only [hl1] at h; cases h
          | some pl1 =>
            simp only [hl1] at h
            cases hl2 : t.get_player_by_id p2 with
            | none => simp only [hl2] at h; cases h
            | some pl2 =>
              simp only [hl2] at h
              rcases pairLoop_rematch all rest (used ++ [p1, p2])
                  (rnd.add_match (Match.mk2 pl1 pl2)) (t.remember_pair p1 p2)
                  rnd' t' h m hm with
                hin | ⟨p2', tMid, usedMid, hp2', hmono, hdisj⟩
              · rcases List.mem_append.1 hin with hold | hnew
                · exact Or.inl hold
                · have hm2 : m = Match.mk2 pl1 pl2 := by simpa using hnew
                  have hfbp := List.find?_some hfb
                  rw [Bool.and_eq_true] at hfbp
                  refine Or.inr ⟨pl2, t, used, by rw [hm2]; rfl,
                    fun a b hab => hab, Or.inr ⟨?_, ?_, ?_⟩⟩
                  · rw [hm2]
                    show used.contains pl1.national_id = false
                    rw [get_player_by_id_nid hl1]
                    simpa using hc
                  · rw [get_player_by_id_nid hl2]
                    simpa using hfbp.1
                  · rw [hm2]
                    show t.find_partner pl1.national_id all used = none
                    rw [get_player_by_id_nid hl1]
                    exact hfp
              · exact Or.inr ⟨p2', tMid, usedMid, hp2',
                  fun a b hab => hmono a b (pairMem_remember t p1 p2 a b hab), hdisj⟩

theorem add_exempt_bye_by_id_ne_ok (t : Tournament) (rnd : Round) (pid : PyStr)
    (r' : Round × Tournament) : t.add_exempt_bye_by_id rnd pid ≠ .ok r' := by
  intro hcon
  unfold Tournament.add_exempt_bye_by_id at hcon
  cases hp : t.get_player_by_id pid with
  | none =>
    simp only [hp] at hcon
    cases hcon
  | some p =>
    simp only [hp] at hcon
    rw [show t.add_exempt_bye rnd p = .error (pystr "KeyError: exempt") from rfl]
      at hcon
    cases hcon

/-- C4 (amended): in every round produced by a successful `start_next_round`,
a match whose players already met (its pair lies in the pre-round
`past_pairs`) can only arise from the relaxed fallback: at its creation the
first player was unused, the chosen partner was unused, and `find_partner`
found no unused rematch-free successor in the sorted participant list.
(The unqualified claim — no rematch whenever some complete rematch-free
pairing existed — is refuted by `C4_counterexample`.) -/
theorem C4_rematch_only_when_relaxed (t : Tournament) (now : PyStr)
    (shuf : List PyStr → List PyStr) (t' : Tournament)
    (hok : t.start_next_round now shuf = .ok t') :
    ∀ r, t'.rounds.getLast? = some r →
    ∀ m ∈ r.«matches», ∀ p2, m.player2 = some p2 →
      pairMem t.past_pairs m.player1.national_id p2.national_id = true →
      ∃ (tMid : Tournament) (usedMid : List PyStr),
        (∀ a b, pairMem t.past_pairs a b = true →
          pairMem tMid.past_pairs a b = true) ∧
        usedMid.contains m.player1.national_id = false ∧
        usedMid.contains p2.national_id = false ∧
        tMid.find_partner m.player1.national_id
          (Tournament.sorted_player_ids_by_score
            { t with current_round_number := t.current_round_number + 1 } shuf)
          usedMid = none := by
  intro r hr m hm p2 hp2 hpast
  unfold Tournament.start_next_round at hok
  by_cases hz1 : t.current_round_number = 0
  · rw [if_pos hz1] at hok; cases hok
  · rw [if_neg hz1] at hok
    by_cases hz2 : t.current_round_number ≥ t.number_rounds
    · rw [if_pos hz2] at hok; cases hok
    · rw [if_neg hz2] at hok
      dsimp only at hok
      set t1 : Tournament :=
        { t with current_round_number := t.current_round_number + 1 } with ht1
      set ids0 := t1.sorted_player_ids_by_score shuf with hids0
      have hloop : ∃ rnd2 t2, pairLoop ids0 ids0 []
          (Round.new t1.current_round_number now) t1 = .ok (rnd2, t2) ∧
          t' = { t2 with rounds := t2.rounds ++ [rnd2] } := by
        split at hok
        · cases hok
        · next ids rnd2v t2v heq =>
          have hids : ids = ids0 ∧ rnd2v = Round.new t1.current_round_number now ∧
              t2v = t1 := by
            split at heq
            · split at heq
              · split at heq
                · cases heq
                · next rnd3 t3 hbye =>
                  exact (add_exempt_bye_by_id_ne_ok _ _ _ _ hbye).elim
              · cases heq; exact ⟨rfl, rfl, rfl⟩
            · cases heq; exact ⟨rfl, rfl, rfl⟩
          obtain ⟨h1, h2, h3⟩ := hids
          subst h1; subst h2; subst h3
          split at hok
          · cases hok
          · next rnd3 t3 hploop =>
            injection hok with hok2
            exact ⟨rnd3, t3, hploop, hok2.symm⟩
      obtain ⟨rnd2, t2, hploop, ht'⟩ := hloop
      have hrr : r = rnd2 := by
        rw [ht'] at hr
        simp only [List.getLast?_concat] at hr
        exact (Option.some.inj hr).symm
      rw [hrr] at hm
      rcases pairLoop_rematch ids0 ids0 []
          (Round.new t1.current_round_number now) t1 rnd2 t2 hploop m hm with
        hin | hfound
      · simp [Round.new] at hin
      · obtain ⟨p2', tMid, usedMid, hp2', hmono, hdisj⟩ := hfound
        have hp2eq : p2' = p2 := by
          rw [hp2] at hp2'
          exact (Option.some.inj hp2').symm
        subst hp2eq
        have hmono' : ∀ a b, pairMem t.past_pairs a b = true →
            pairMem tMid.past_pairs a b = true := by
          intro a b hab
          exact hmono a b hab
        rcases hdisj with hclean | hrelax
        · exact absurd (hmono' _ _ hpast) (by rw [hclean]; simp)
        · exact ⟨tMid, usedMid, hmono', hrelax.1, hrelax.2.1, hrelax.2.2⟩

/-- The round `start_next_round` produces in the `C4_counterexample` run. -/
def r2val : Round :=
  { round_number := 2, start_time := pystr "RT2", end_time := []
    «matches» := [Match.mk2 (samplePlayer 1) (samplePlayer 5),
                  Match.mk2 (samplePlayer 2) (samplePlayer 3),
                  Match.mk2 (samplePlayer 6) (samplePlayer 4),
                  Match.mk2 (samplePlayer 7) (samplePlayer 8)] }

theorem C4_rematch_only_when_relaxed_witness :
    ∃ (tMid : Tournament) (usedMid : List PyStr),
      (∀ a b, pairMem t8u.past_pairs a b = true →
        pairMem tMid.past_pairs a b = true) ∧
      usedMid.contains
        (Match.mk2 (samplePlayer 7) (samplePlayer 8)).player1.national_id = false ∧
      usedMid.contains (samplePlayer 8).national_id = false ∧
      tMid.find_partner
        (Match.mk2 (samplePlayer 7) (samplePlayer 8)).player1.national_id
        (Tournament.sorted_player_ids_by_score
          { t8u with current_round_number := t8u.current_round_number + 1 } shufC4)
        usedMid = none :=
  C4_rematch_only_when_relaxed t8u (pystr "RT2") shufC4 t8r2 (by decide)
    r2val (by decide) (Match.mk2 (samplePlayer 7) (samplePlayer 8)) (by decide)
    (samplePlayer 8) rfl (by decide)

-- ---------------------------------------------------------------------
-- C5
-- ---------------------------------------------------------------------

/-- The state `start_first_round` leaves behind on a 9-player roster. -/
def t9err : Tournament :=
  stateOf ((tStage 9).start_first_round sdate (pystr "RT1") id)

/-- C5: the invariant `len(rounds) == current_round_number` is broken by a
failing operation.  On the reachable 9-player roster, `start_first_round`
sets `current_round_number` to 1, pairs four matches, and then crashes with
`KeyError` in `add_exempt_bye` (the missing `"exempt"` entry of
`MATCH_RESULT_POINTS`) before appending the round: the state left behind has
`current_round_number == 1` but `rounds == []`.  The spec clearly intends the
invariant to hold (guard violations are checked before any mutation); the
crash comes from the same constants slip as C1. -/
theorem C5_round_count_invariant_broken :
    Reachable sdate (tStage 9) ∧
    (tStage 9).start_first_round sdate (pystr "RT1") id =
      .error (pystr "KeyError: exempt", t9err) ∧
    t9err.current_round_number = 1 ∧
    t9err.rounds = [] :=
  ⟨reach_tStage 9 (le_refl 9), by decide, by decide, by decide⟩

-- ---------------------------------------------------------------------
-- C3: string-normalisation lemmas
-- ---------------------------------------------------------------------

theorem dropWhile_head_not (p : Nat → Bool) :
    ∀ l : List Nat, ∀ c ∈ (l.dropWhile p).head?, p c = false := by
  intro l
  induction l with
  | nil => intro c hc; cases hc
  | cons x xs ih =>
    intro c hc
    rw [List.dropWhile_cons] at hc
    by_cases hx : p x = true
    · rw [if_pos hx] at hc; exact ih c hc
    · rw [if_neg hx] at hc
      cases hc
      simpa using hx

theorem dropWhile_eq_self_of_head (p : Nat → Bool) (l : List Nat)
    (h : ∀ c ∈ l.head?, p c = false) : l.dropWhile p = l := by
  cases l with
  | nil => rfl
  | cons x xs =>
    rw [List.dropWhile_cons, if_neg]
    simp [h x rfl]

theorem pyStrip_of_edges (l : List Nat)
    (h1 : ∀ c ∈ l.head?, isPySpace c = false)
    (h2 : ∀ c ∈ l.getLast?, isPySpace c = false) : pyStrip l = l := by
  unfold pyStrip
  rw [dropWhile_eq_self_of_head _ _ h1,
    dropWhile_eq_self_of_head _ _ (by simpa [List.head?_reverse] using h2),
    List.reverse_reverse]

theorem dropWhile_getLast? (p : Nat → Bool) :
    ∀ l : List Nat, l.dropWhile p ≠ [] → (l.dropWhile p).getLast? = l.getLast? := by
  intro l
  induction l with
  | nil => intro h; cases h rfl
  | cons x xs ih =>
    intro h
    rw [List.dropWhile_cons] at h ⊢
    by_cases hx : p x = true
    · rw [if_pos hx] at h ⊢
      rw [ih h]
      have hxs : xs ≠ [] := by
        intro hnil
        rw [hnil] at h
        exact h rfl
      cases xs with
      | nil => exact absurd rfl hxs
      | cons y ys => rfl
    · rw [if_neg hx]

theorem pyStrip_head (s : List Nat) :
    ∀ c ∈ (pyStrip s).head?, isPySpace c = false := by
  intro c hc
  unfold pyStrip at hc
  rw [List.head?_reverse] at hc
  by_cases hv : ((s.dropWhile isPySpace).reverse.dropWhile isPySpace) = []
  · rw [hv] at hc; cases hc
  · rw [dropWhile_getLast? _ _ hv, List.getLast?_reverse] at hc
    exact dropWhile_head_not _ _ _ hc

theorem pyStrip_last (s : List Nat) :
    ∀ c ∈ (pyStrip s).getLast?, isPySpace c = false := by
  intro c hc
  unfold pyStrip at hc
  rw [List.getLast?_reverse] at hc
  exact dropWhile_head_not _ _ _ hc

theorem pyStrip_idem (s : List Nat) : pyStrip (pyStrip s) = pyStrip s :=
  pyStrip_of_edges _ (pyStrip_head s) (pyStrip_last s)

-- character-level case facts

theorem isPySpace_of_cased (n : Nat) (h : isCasedPy n = true) :
    isPySpace n = false := by
  rw [Bool.eq_false_iff]
  intro hsp
  simp only [isPySpace, Bool.or_eq_true, decide_eq_true_eq] at hsp
  simp only [isCasedPy, Bool.or_eq_true, Bool.and_eq_true, decide_eq_true_eq] at h
  omega

theorem cased_cLower (n : Nat) (h : isCasedPy n = true) :
    isCasedPy (cLower n) = true := by
  simp only [isCasedPy, Bool.or_eq_true, Bool.and_eq_true, decide_eq_true_eq] at h ⊢
  unfold cLower
  split_ifs <;> omega

theorem cased_cUpper (n : Nat) (h : isCasedPy n = true) :
    isCasedPy (cUpper n) = true := by
  simp only [isCasedPy, Bool.or_eq_true, Bool.and_eq_true, decide_eq_true_eq] at h ⊢
  unfold cUpper
  split_ifs <;> omega

theorem cLower_idem (n : Nat) : cLower (cLower n) = cLower n := by
  unfold cLower
  split_ifs <;> omega

theorem cUpper_idem (n : Nat) : cUpper (cUpper n) = cUpper n := by
  unfold cUpper
  split_ifs <;> omega

theorem cUpper_ne_223 (n : Nat) (h : n ≠ 223) : cUpper n ≠ 223 := by
  unfold cUpper
  split_ifs <;> omega

/-- The characters `titleAux` emits for one input character. -/
def titleChunk (b : Bool) (c : Nat) : List Nat :=
  if isCasedPy c then (if b then [cLower c] else cTitleL c) else [c]

theorem titleAux_cons (b : Bool) (c : Nat) (cs : List Nat) :
    titleAux b (c :: cs) = titleChunk b c ++ titleAux (isCasedPy c) cs := rfl

theorem titleChunk_ne_nil (b : Bool) (c : Nat) : titleChunk b c ≠ [] := by
  unfold titleChunk cTitleL
  split_ifs <;> simp

/-- The cased flag after processing a list of characters. -/
def lastFlag : Bool → List Nat → Bool
  | b, [] => b
  | _, c :: cs => lastFlag (isCasedPy c) cs

theorem titleAux_append (y : List Nat) :
    ∀ (x : List Nat) (b : Bool),
      titleAux b (x ++ y) = titleAux b x ++ titleAux (lastFlag b x) y := by
  intro x
  induction x with
  | nil => intro b; rfl
  | cons c cs ih =>
    intro b
    have e1 : titleAux b ((c :: cs) ++ y) =
        titleChunk b c ++ titleAux (isCasedPy c) (cs ++ y) := rfl
    have e3 : lastFlag b (c :: cs) = lastFlag (isCasedPy c) cs := rfl
    rw [e1, titleAux_cons, e3, ih (isCasedPy c), List.append_assoc]

theorem titleAux_ne_nil (b : Bool) (c : Nat) (cs : List Nat) :
    titleAux b (c :: cs) ≠ [] := by
  rw [titleAux_cons]
  intro h
  exact titleChunk_ne_nil b c (List.append_eq_nil.1 h).1

theorem titleChunk_head (b : Bool) (c : Nat) :
    ∀ z ∈ (titleChunk b c).head?, isPySpace z = isPySpace c := by
  intro z hz
  unfold titleChunk at hz
  by_cases hc : isCasedPy c = true
  · rw [if_pos hc] at hz
    by_cases hb : b = true
    · rw [if_pos hb] at hz
      cases hz
      rw [isPySpace_of_cased _ hc, isPySpace_of_cased _ (cased_cLower _ hc)]
    · rw [if_neg hb] at hz
      unfold cTitleL at hz
      split_ifs at hz with h223
      · cases hz
        rw [isPySpace_of_cased _ hc]
        decide
      · cases hz
        rw [isPySpace_of_cased _ hc, isPySpace_of_cased _ (cased_cUpper _ hc)]
  · rw [if_neg hc] at hz
    cases hz
    rfl

theorem titleChunk_last (b : Bool) (c : Nat) :
    ∀ z ∈ (titleChunk b c).getLast?, isPySpace z = isPySpace c := by
  intro z hz
  unfold titleChunk at hz
  by_cases hc : isCasedPy c = true
  · rw [if_pos hc] at hz
    by_cases hb : b = true
    · rw [if_pos hb] at hz
      rw [show ([cLower c] : List Nat).getLast? = some (cLower c) from rfl] at hz
      cases hz
      rw [isPySpace_of_cased _ hc, isPySpace_of_cased _ (cased_cLower _ hc)]
    · rw [if_neg hb] at hz
      unfold cTitleL at hz
      split_ifs at hz with h223
      · rw [show ([83, 115] : List Nat).getLast? = some 115 from rfl] at hz
        cases hz
        rw [isPySpace_of_cased _ hc]
        decide
      · rw [show ([cUpper c] : List Nat).getLast? = some (cUpper c) from rfl] at hz
        cases hz
        rw [isPySpace_of_cased _ hc, isPySpace_of_cased _ (cased_cUpper _ hc)]
  · rw [if_neg hc] at hz
    rw [show ([c] : List Nat).getLast? = some c from rfl] at hz
    cases hz
    rfl

theorem titleAux_head (b : Bool) (c : Nat) (cs : List Nat) :
    ∀ z ∈ (titleAux b (c :: cs)).head?, isPySpace z = isPySpace c := by
  intro z hz
  rw [titleAux_cons] at hz
  rcases hch : titleChunk b c with _ | ⟨h0, htl⟩
  · exact absurd hch (titleChunk_ne_nil b c)
  · rw [hch, List.cons_append, List.head?_cons] at hz
    cases hz
    exact titleChunk_head b c z (by rw [hch]; rfl)

theorem titleAux_last :
    ∀ (cs : List Nat) (b : Bool) (c : Nat),
      ∀ z ∈ (titleAux b (c :: cs)).getLast?,
        ∀ w ∈ (c :: cs).getLast?, isPySpace z = isPySpace w
  | [], b, c => by
    intro z hz w hw
    rw [show ([c] : List Nat).getLast? = some c from rfl] at hw
    cases hw
    rw [titleAux_cons, show titleAux (isCasedPy c) [] = [] from rfl,
      List.append_nil] at hz
    exact titleChunk_last b c z hz
  | d :: ds, b, c => by
    intro z hz w hw
    rw [titleAux_cons, List.getLast?_append,
      Option.or_of_isSome (by
        rcases h : titleAux (isCasedPy c) (d :: ds) with _ | ⟨e, es⟩
        · exact absurd h (titleAux_ne_nil (isCasedPy c) d ds)
        · simp)] at hz
    rw [List.getLast?_cons_cons] at hw
    exact titleAux_last ds (isCasedPy c) d z hz w hw

theorem lastFlag_chunk (b : Bool) (c : Nat) :
    lastFlag b (titleChunk b c) = isCasedPy c := by
  unfold titleChunk
  by_cases hc : isCasedPy c = true
  · rw [if_pos hc]
    by_cases hb : b = true
    · rw [if_pos hb]
      show isCasedPy (cLower c) = isCasedPy c
      rw [cased_cLower _ hc, hc]
    · rw [if_neg hb]
      unfold cTitleL
      split_ifs with h223
      · rw [hc]
        show isCasedPy 115 = true
        decide
      · show isCasedPy (cUpper c) = isCasedPy c
        rw [cased_cUpper _ hc, hc]
  · rw [if_neg hc]
    show isCasedPy c = isCasedPy c
    rfl

theorem titleAux_chunk_fix (b : Bool) (c : Nat) :
    titleAux b (titleChunk b c) = titleChunk b c := by
  by_cases hc : isCasedPy c = true
  · by_cases hb : b = true
    · have hch : titleChunk b c = [cLower c] := by
        unfold titleChunk
        rw [if_pos hc, if_pos hb]
      rw [hch, titleAux_cons,
        show titleAux (isCasedPy (cLower c)) [] = [] from rfl, List.append_nil]
      unfold titleChunk
      rw [if_pos (cased_cLower _ hc), if_pos hb, cLower_idem]
    · by_cases h223 : c = 223
      · have hch : titleChunk b c = [83, 115] := by
          unfold titleChunk cTitleL
          rw [if_pos hc, if_neg hb, if_pos h223]
        have hbf : b = false := Bool.eq_false_iff.2 hb
        rw [hch, hbf]
        decide
      · have hch : titleChunk b c = [cUpper c] := by
          unfold titleChunk cTitleL
          rw [if_pos hc, if_neg hb, if_neg h223]
        rw [hch, titleAux_cons,
          show titleAux (isCasedPy (cUpper c)) [] = [] from rfl, List.append_nil]
        unfold titleChunk cTitleL
        rw [if_pos (cased_cUpper _ hc), if_neg hb, if_neg (cUpper_ne_223 _ h223),
          cUpper_idem]
  · have hch : titleChunk b c = [c] := by
      unfold titleChunk
      rw [if_neg hc]
    rw [hch, titleAux_cons, show titleAux (isCasedPy c) [] = [] from rfl,
      List.append_nil]
    unfold titleChunk
    rw [if_neg hc]

theorem titleAux_idem : ∀ (l : List Nat) (b : Bool),
    titleAux b (titleAux b l) = titleAux b l
  | [], _ => rfl
  | c :: cs, b => by
    rw [titleAux_cons, titleAux_append, lastFlag_chunk, titleAux_chunk_fix,
      titleAux_idem cs (isCasedPy c)]

theorem pyTitle_idem (l : List Nat) : pyTitle (pyTitle l) = pyTitle l :=
  titleAux_idem l false

/-- The stored form of a name field is a fixed point of `strip().title()`. -/
theorem stored_name_fix (raw : List Nat) :
    pyStrip (pyTitle (pyStrip raw)) = pyTitle (pyStrip raw) ∧
    pyTitle (pyTitle (pyStrip raw)) = pyTitle (pyStrip raw) := by
  constructor
  · rcases ht : pyStrip raw with _ | ⟨c, cs⟩
    · rfl
    · refine pyStrip_of_edges _ ?_ ?_
      · intro z hz
        rw [titleAux_head false c cs z hz]
        have hh := pyStrip_head raw
        rw [ht] at hh
        exact hh c rfl
      · intro z hz
        rcases hlast : ((c :: cs) : List Nat).getLast? with _ | ⟨w⟩
        · simp at hlast
        · rw [titleAux_last cs false c z hz w hlast]
          have hl := pyStrip_last raw
          rw [ht] at hl
          exact hl w hlast
  · exact pyTitle_idem _

-- ---------------------------------------------------------------------
-- normalisation of national ids: strip().upper() round trip
-- ---------------------------------------------------------------------

theorem isPySpace_of_letter (a : Nat) (h : isAsciiLetter a = true) :
    isPySpace a = false := by
  rw [Bool.eq_false_iff]
  intro hsp
  simp only [isPySpace, Bool.or_eq_true, decide_eq_true_eq] at hsp
  simp only [isAsciiLetter, Bool.or_eq_true, Bool.and_eq_true, decide_eq_true_eq] at h
  omega

theorem isPySpace_of_digit (d : Nat) (h : isDigitCp d = true) :
    isPySpace d = false := by
  rw [Bool.eq_false_iff]
  intro hsp
  simp only [isPySpace, Bool.or_eq_true, decide_eq_true_eq] at hsp
  simp only [isDigitCp, Bool.and_eq_true, decide_eq_true_eq] at h
  omega

theorem cUpperL_letter (a : Nat) (h : isAsciiLetter a = true) :
    cUpperL a = [cUpper a] := by
  simp only [isAsciiLetter, Bool.or_eq_true, Bool.and_eq_true, decide_eq_true_eq] at h
  unfold cUpperL
  rw [if_neg (by omega)]

theorem cUpper_digit (d : Nat) (h : isDigitCp d = true) : cUpper d = d := by
  simp only [isDigitCp, Bool.and_eq_true, decide_eq_true_eq] at h
  unfold cUpper
  split_ifs <;> omega

theorem cUpperL_digit (d : Nat) (h : isDigitCp d = true) : cUpperL d = [d] := by
  simp only [isDigitCp, Bool.and_eq_true, decide_eq_true_eq] at h
  unfold cUpperL
  rw [if_neg (by omega), cUpper_digit d (by simp [isDigitCp]; omega)]

theorem isAsciiLetter_cUpper (a : Nat) (h : isAsciiLetter a = true) :
    isAsciiLetter (cUpper a) = true := by
  simp only [isAsciiLetter, Bool.or_eq_true, Bool.and_eq_true, decide_eq_true_eq] at h ⊢
  unfold cUpper
  split_ifs <;> omega

/-- Normalised seven-character ids: stripping is the identity, upper-casing
maps the two letters through `cUpper`, and the result is a valid id. -/
theorem id_norm7 (a b d1 d2 d3 d4 d5 : Nat)
    (ha : isAsciiLetter a = true) (hb : isAsciiLetter b = true)
    (h1 : isDigitCp d1 = true) (h2 : isDigitCp d2 = true)
    (h3 : isDigitCp d3 = true) (h4 : isDigitCp d4 = true)
    (h5 : isDigitCp d5 = true) :
    pyStrip [a, b, d1, d2, d3, d4, d5] = [a, b, d1, d2, d3, d4, d5] ∧
    pyUpper [a, b, d1, d2, d3, d4, d5] = [cUpper a, cUpper b, d1, d2, d3, d4, d5] ∧
    isValidId [cUpper a, cUpper b, d1, d2, d3, d4, d5] = true := by
  refine ⟨?_, ?_, ?_⟩
  · refine pyStrip_of_edges _ ?_ ?_
    · intro c hc
      cases hc
      exact isPySpace_of_letter a ha
    · intro c hc
      rw [show ([a, b, d1, d2, d3, d4, d5] : List Nat).getLast? = some d5 from rfl] at hc
      cases hc
      exact isPySpace_of_digit d5 h5
  · unfold pyUpper
    simp only [List.foldr_cons, List.foldr_nil]
    rw [cUpperL_letter a ha, cUpperL_letter b hb, cUpperL_digit d1 h1,
      cUpperL_digit d2 h2, cUpperL_digit d3 h3, cUpperL_digit d4 h4,
      cUpperL_digit d5 h5]
    rfl
  · show (isAsciiLetter (cUpper a) && isAsciiLetter (cUpper b) &&
      isDigitCp d1 && isDigitCp d2 && isDigitCp d3 && isDigitCp d4 &&
      isDigitCp d5) = true
    rw [isAsciiLetter_cUpper a ha, isAsciiLetter_cUpper b hb, h1, h2, h3, h4, h5]
    rfl

/-- The stored form `strip().upper()` of a valid id is a valid id and a
fixed point of the normalisation. -/
theorem id_roundtrip (s : PyStr) (h : isValidId s = true) :
    isValidId (pyUpper (pyStrip s)) = true ∧
    pyUpper (pyStrip (pyUpper (pyStrip s))) = pyUpper (pyStrip s) := by
  have core : ∀ a b d1 d2 d3 d4 d5 : Nat, isAsciiLetter a = true →
      isAsciiLetter b = true → isDigitCp d1 = true → isDigitCp d2 = true →
      isDigitCp d3 = true → isDigitCp d4 = true → isDigitCp d5 = true →
      isValidId (pyUpper [a, b, d1, d2, d3, d4, d5]) = true ∧
      pyUpper (pyStrip (pyUpper [a, b, d1, d2, d3, d4, d5])) =
        pyUpper [a, b, d1, d2, d3, d4, d5] := by
    intro a b d1 d2 d3 d4 d5 ha hb h1 h2 h3 h4 h5
    obtain ⟨-, hup, hval⟩ := id_norm7 a b d1 d2 d3 d4 d5 ha hb h1 h2 h3 h4 h5
    obtain ⟨hs2, hup2, -⟩ := id_norm7 (cUpper a) (cUpper b) d1 d2 d3 d4 d5
      (isAsciiLetter_cUpper a ha) (isAsciiLetter_cUpper b hb) h1 h2 h3 h4 h5
    refine ⟨by rw [hup]; exact hval, ?_⟩
    rw [hup, hs2, hup2, cUpper_idem, cUpper_idem]
  unfold isValidId at h
  split at h
  case h_1 a b d1 d2 d3 d4 d5 =>
    simp only [Bool.and_eq_true] at h
    obtain ⟨⟨⟨⟨⟨⟨ha, hb⟩, h1⟩, h2⟩, h3⟩, h4⟩, h5⟩ := h
    obtain ⟨hstrip, -, -⟩ := id_norm7 a b d1 d2 d3 d4 d5 ha hb h1 h2 h3 h4 h5
    rw [hstrip]
    exact core a b d1 d2 d3 d4 d5 ha hb h1 h2 h3 h4 h5
  case h_2 a b d1 d2 d3 d4 d5 nl =>
    simp only [Bool.and_eq_true, decide_eq_true_eq] at h
    obtain ⟨⟨⟨⟨⟨⟨⟨ha, hb⟩, h1⟩, h2⟩, h3⟩, h4⟩, h5⟩, hnl⟩ := h
    subst hnl
    have hstrip : pyStrip [a, b, d1, d2, d3, d4, d5, 10] =
        [a, b, d1, d2, d3, d4, d5] := by
      unfold pyStrip
      rw [dropWhile_eq_self_of_head isPySpace [a, b, d1, d2, d3, d4, d5, 10] (by
        intro c hc
        cases hc
        exact isPySpace_of_letter a ha)]
      rw [show ([a, b, d1, d2, d3, d4, d5, 10] : List Nat).reverse =
        10 :: [d5, d4, d3, d2, d1, b, a] from by simp]
      rw [List.dropWhile_cons, if_pos (show isPySpace 10 = true from rfl)]
      rw [dropWhile_eq_self_of_head isPySpace [d5, d4, d3, d2, d1, b, a] (by
        intro c hc
        cases hc
        exact isPySpace_of_digit d5 h5)]
      simp
    rw [hstrip]
    exact core a b d1 d2 d3 d4 d5 ha hb h1 h2 h3 h4 h5
  case h_3 =>
    cases h

-- ---------------------------------------------------------------------
-- birthdate validity is monotone in the evaluation date
-- ---------------------------------------------------------------------

theorem Date_lt_of_lt_of_le {a b c : Date} (h1 : Date.lt a b) (h2 : Date.le b c) :
    Date.lt a c := by
  rcases h2 with h2 | rfl
  · unfold Date.lt at *
    omega
  · exact h1

theorem Date_le_y {a b : Date} (h : Date.le a b) : a.y ≤ b.y := by
  rcases h with h | rfl
  · unfold Date.lt at h
    omega
  · omega

theorem birthdate_mono (d d' : Date) (bd : PyStr) (hle : Date.le d d')
    (h : isValidBirthdate d bd = true) : isValidBirthdate d' bd = true := by
  unfold isValidBirthdate at h ⊢
  rcases hp : parseDate bd with _ | ⟨b⟩
  · rw [hp] at h
    cases h
  · rw [hp] at h
    simp only [Bool.and_eq_true, decide_eq_true_eq] at h ⊢
    obtain ⟨⟨hlt, hmin⟩, hmax⟩ := h
    exact ⟨⟨Date_lt_of_lt_of_le hlt hle, hmin⟩, le_trans hmax (Date_le_y hle)⟩

/-- Round trip through the intended `Player.from_dict` for a stored player
whose fields are normalisation fixed points and still valid at the reload
date. -/
theorem player_from_dict_roundtrip (today : Date) (p : Player)
    (hln : isValidName p.last_name = true)
    (hfn : isValidName p.first_name = true)
    (hbd : isValidBirthdate today p.birthdate = true)
    (hid : isValidId p.national_id = true)
    (hlnf : pyTitle (pyStrip p.last_name) = p.last_name)
    (hfnf : pyTitle (pyStrip p.first_name) = p.first_name)
    (hidf : pyUpper (pyStrip p.national_id) = p.national_id) :
    Player.from_dict_intended today p = .ok p := by
  obtain ⟨ln, fn, bd, nid, de, mh, tw⟩ := p
  dsimp only at hln hfn hbd hid hlnf hfnf hidf
  unfold Player.from_dict_intended playerNewIntended
  rw [if_neg (not_not_intro hln), if_neg (not_not_intro hfn),
    if_neg (not_not_intro hbd), if_neg (not_not_intro hid)]
  dsimp only
  rw [hlnf, hfnf, hidf]

-- ---------------------------------------------------------------------
-- the serialization invariant of reachable states
-- ---------------------------------------------------------------------

/-- Normalisation facts holding of every player object the constructor has
produced, evaluated at the current date `d`. -/
def PlayerStored (d : Date) (p : Player) : Prop :=
  pyTitle (pyStrip p.last_name) = p.last_name ∧
  pyTitle (pyStrip p.first_name) = p.first_name ∧
  pyUpper (pyStrip p.national_id) = p.national_id ∧
  isValidId p.national_id = true ∧
  isValidBirthdate d p.birthdate = true

/-- Every stored match references two distinct roster player objects (byes
cannot be constructed, `Match.__init__` raising on `player2 = None`). -/
def MatchOK (ps : List Player) (m : Match) : Prop :=
  m.player1 ∈ ps ∧ ∃ p2, m.player2 = some p2 ∧ p2 ∈ ps

/-- The pair list stands for a set of two-element frozensets: components
distinct, no pair repeated in either orientation. -/
def PastOK (l : List (PyStr × PyStr)) : Prop :=
  (∀ q ∈ l, q.1 ≠ q.2) ∧
  List.Pairwise (fun p q => ¬(p.1 = q.1 ∧ p.2 = q.2) ∧ ¬(p.1 = q.2 ∧ p.2 = q.1)) l

/-- The serialization invariant of reachable tournament states. -/
def InvT (d : Date) (t : Tournament) : Prop :=
  (∀ p ∈ t.players, PlayerStored d p) ∧
  (t.players.map Player.national_id).Nodup ∧
  (∀ r ∈ t.rounds, ∀ m ∈ r.«matches», MatchOK t.players m) ∧
  PastOK t.past_pairs ∧
  pyStrip t.description = t.description

/-- `from_dict ∘ to_dict` restores every engine-visible field (`repo_name`
feeds only the stored `name` key, which `to_dict` rebuilds). -/
def TournEquiv (a b : Tournament) : Prop :=
  a.location = b.location ∧ a.start_date = b.start_date ∧
  a.end_date = b.end_date ∧ a.started_at = b.started_at ∧
  a.finished_at = b.finished_at ∧ a.description = b.description ∧
  a.number_rounds = b.number_rounds ∧
  a.current_round_number = b.current_round_number ∧
  a.players = b.players ∧ a.rounds = b.rounds ∧ a.scores = b.scores ∧
  a.past_pairs = b.past_pairs ∧ a.winner_id = b.winner_id

theorem PlayerFromCtor_stored {d : Date} {p : Player} (h : PlayerFromCtor d p) :
    PlayerStored d p := by
  obtain ⟨d0, ln, fn, bd, nid, mh, tw, hle, hok⟩ := h
  unfold playerNewIntended at hok
  split_ifs at hok with h1 h2 h3 h4
  · cases hok
    refine ⟨?_, ?_, (id_roundtrip nid h4).2, (id_roundtrip nid h4).1, ?_⟩
    · show pyTitle (pyStrip (pyTitle (pyStrip ln))) = pyTitle (pyStrip ln)
      rw [(stored_name_fix ln).1, (stored_name_fix ln).2]
    · show pyTitle (pyStrip (pyTitle (pyStrip fn))) = pyTitle (pyStrip fn)
      rw [(stored_name_fix fn).1, (stored_name_fix fn).2]
    · exact birthdate_mono d0 d bd hle h3

theorem PlayerStored_mono {d d' : Date} {p : Player} (hle : Date.le d d')
    (h : PlayerStored d p) : PlayerStored d' p :=
  ⟨h.1, h.2.1, h.2.2.1, h.2.2.2.1, birthdate_mono d d' p.birthdate hle h.2.2.2.2⟩

theorem isValidId_ne_nil {s : PyStr} (h : isValidId s = true) : s ≠ [] := by
  intro hnil
  rw [hnil] at h
  cases h

/-- States agreeing on the invariant-relevant fields share the invariant. -/
theorem InvT_congr {d : Date} {t t' : Tournament}
    (hp : t'.players = t.players) (hr : t'.rounds = t.rounds)
    (hq : t'.past_pairs = t.past_pairs) (hd : t'.description = t.description)
    (h : InvT d t) : InvT d t' := by
  obtain ⟨i1, i2, i3, i4, i5⟩ := h
  exact ⟨by rw [hp]; exact i1, by rw [hp]; exact i2,
    by rw [hr, hp]; exact i3, by rw [hq]; exact i4, by rw [hd]; exact i5⟩

theorem foldl_lookup_skip (nid : PyStr) :
    ∀ (ps : List Player) (acc : Option Player),
      (∀ p ∈ ps, p.national_id ≠ nid) →
      ps.foldl (fun acc p => if p.national_id = nid then some p else acc) acc = acc := by
  intro ps
  induction ps with
  | nil => intro acc _; rfl
  | cons q rest ih =>
    intro acc h
    rw [List.foldl_cons, if_neg (h q (List.mem_cons_self q rest))]
    exact ih acc (fun p hp => h p (List.mem_cons_of_mem q hp))

/-- On a duplicate-free roster, the `from_dict` player lookup resolves each
roster player's id to that player. -/
theorem playerLookup_self (ps : List Player)
    (hnd : (ps.map Player.national_id).Nodup) (p : Player) (hp : p ∈ ps) :
    playerLookup ps p.national_id = some p := by
  obtain ⟨l1, l2, rfl⟩ := List.append_of_mem hp
  have h2 : ∀ q ∈ l2, q.national_id ≠ p.national_id := by
    intro q hq
    have : p.national_id ∉ l2.map Player.national_id := by
      rw [List.map_append, List.map_cons] at hnd
      exact (List.nodup_cons.1 (List.nodup_append.1 hnd).2.1).1
    intro he
    exact this (by rw [← he]; exact List.mem_map_of_mem Player.national_id hq)
  unfold playerLookup
  rw [List.foldl_append, List.foldl_cons, if_pos rfl]
  exact foldl_lookup_skip p.national_id l2 _ h2

theorem Match_roundtrip (ps : List Player)
    (hnd : (ps.map Player.national_id).Nodup)
    (hids : ∀ p ∈ ps, p.national_id ≠ [])
    (m : Match) (hm : MatchOK ps m) :
    Match.from_dict (playerLookup ps) (Match.to_dict m) = .ok m := by
  obtain ⟨h1, p2, hp2, h2⟩ := hm
  obtain ⟨q1, q2, s1, s2, r1, r2⟩ := m
  dsimp only at h1 hp2
  subst hp2
  have hl1 : playerLookup ps q1.national_id = some q1 := playerLookup_self ps hnd q1 h1
  have hl2 : playerLookup ps p2.national_id = some p2 := playerLookup_self ps hnd p2 h2
  have hne : (p2.national_id = []) = False := eq_false (hids p2 h2)
  unfold Match.from_dict Match.to_dict
  simp only [Option.map, hl1, hl2, hne, if_false, Match_new_two_players]
  rfl

theorem mapM_ok_of_forall {α β : Type} (f : β → Except PyStr α) (h : α → β) :
    ∀ l : List α, (∀ x ∈ l, f (h x) = .ok x) → (l.map h).mapM f = .ok l := by
  intro l
  induction l with
  | nil => intro _; rfl
  | cons x xs ih =>
    intro hall
    rw [List.map_cons, List.mapM_cons, hall x (List.mem_cons_self x xs),
      ih (fun y hy => hall y (List.mem_cons_of_mem x hy))]
    rfl

theorem Round_roundtrip (ps : List Player)
    (hnd : (ps.map Player.national_id).Nodup)
    (hids : ∀ p ∈ ps, p.national_id ≠ [])
    (r : Round) (hr : ∀ m ∈ r.«matches», MatchOK ps m) :
    Round.from_dict (playerLookup ps) (Round.to_dict r) = .ok r := by
  obtain ⟨n, st, et, ms⟩ := r
  dsimp only at hr
  unfold Round.from_dict Round.to_dict Round.name
  dsimp only
  rw [mapM_ok_of_forall (Match.from_dict (playerLookup ps)) Match.to_dict ms
    (fun m hm => Match_roundtrip ps hnd hids m (hr m hm))]

theorem pairMem_append (l1 l2 : List (PyStr × PyStr)) (a b : PyStr) :
    pairMem (l1 ++ l2) a b = (pairMem l1 a b || pairMem l2 a b) := by
  unfold pairMem
  exact List.any_append

/-- Re-folding the serialized pair lists rebuilds `past_pairs` exactly. -/
theorem pastPairs_refold :
    ∀ (l acc : List (PyStr × PyStr)),
      (∀ q ∈ l, q.1 ≠ q.2) →
      (∀ q ∈ l, pairMem acc q.1 q.2 = false) →
      List.Pairwise (fun p q => ¬(p.1 = q.1 ∧ p.2 = q.2) ∧ ¬(p.1 = q.2 ∧ p.2 = q.1)) l →
      (l.map pairToList).foldl addPastPair acc = acc ++ l
  | [], acc, _, _, _ => by simp
  | q :: l, acc, hne, hmem, hpw => by
    rw [List.map_cons, List.foldl_cons]
    have hq : pairToList q = [q.1, q.2] := by
      unfold pairToList
      rw [if_neg (hne q (List.mem_cons_self q l))]
    rw [hq]
    show (l.map pairToList).foldl addPastPair
      (if pairMem acc q.1 q.2 then acc else acc ++ [(q.1, q.2)]) = acc ++ q :: l
    rw [if_neg (by rw [hmem q (List.mem_cons_self q l)]; intro hc; cases hc)]
    have hrec := pastPairs_refold l (acc ++ [(q.1, q.2)])
      (fun p hp => hne p (List.mem_cons_of_mem q hp))
      (fun p hp => by
        rw [pairMem_append, hmem p (List.mem_cons_of_mem q hp), Bool.false_or]
        have hpq := (List.pairwise_cons.1 hpw).1 p hp
        unfold pairMem
        simp only [List.any_cons, List.any_nil, Bool.or_false]
        rw [Bool.eq_false_iff]
        intro hcon
        simp only [Bool.or_eq_true, Bool.and_eq_true, decide_eq_true_eq] at hcon
        rcases hcon with ⟨ha, hb⟩ | ⟨ha, hb⟩
        · exact hpq.1 ⟨ha, hb⟩
        · exact hpq.2 ⟨ha, hb⟩)
      (List.pairwise_cons.1 hpw).2
    rw [hrec, List.append_assoc]
    rfl

-- ---------------------------------------------------------------------
-- the sorted id sequence is a permutation of the roster ids
-- ---------------------------------------------------------------------

/-- All ids stored in a bucket list. -/
def bucketElems (bs : List (HalfPts × List PyStr)) : List PyStr :=
  (bs.map Prod.snd).flatten

theorem bucketsAdd_elems (k : HalfPts) (i : PyStr) :
    ∀ bs, (bucketElems (bucketsAdd bs k i)).Perm (i :: bucketElems bs)
  | [] => by
    simp [bucketElems, bucketsAdd]
  | (k0, ids0) :: rest => by
    unfold bucketsAdd
    by_cases hk : k0 = k
    · rw [if_pos hk]
      show ((ids0 ++ [i]) ++ bucketElems rest).Perm (i :: (ids0 ++ bucketElems rest))
      rw [List.append_assoc]
      exact List.perm_middle
    · rw [if_neg hk]
      show (ids0 ++ bucketElems (bucketsAdd rest k i)).Perm
        (i :: (ids0 ++ bucketElems rest))
      exact ((bucketsAdd_elems k i rest).append_left ids0).trans List.perm_middle

theorem foldl_buckets_elems (score : Player → HalfPts) :
    ∀ (ps : List Player) (bs : List (HalfPts × List PyStr)),
      (bucketElems (ps.foldl
        (fun bs p => bucketsAdd bs (score p) p.national_id) bs)).Perm
        (bucketElems bs ++ ps.map Player.national_id)
  | [], bs => by simp
  | p :: ps, bs => by
    rw [List.foldl_cons, List.map_cons]
    refine ((foldl_buckets_elems score ps _).trans ?_)
    refine (((bucketsAdd_elems (score p) p.national_id bs).append_right
      (ps.map Player.national_id)).trans ?_)
    exact List.perm_middle.symm

theorem bucketsAdd_keys (k : HalfPts) (i : PyStr) :
    ∀ bs : List (HalfPts × List PyStr),
      ((bucketsAdd bs k i).map Prod.fst = bs.map Prod.fst ∧ k ∈ bs.map Prod.fst) ∨
      ((bucketsAdd bs k i).map Prod.fst = bs.map Prod.fst ++ [k] ∧
        k ∉ bs.map Prod.fst)
  | [] => by
    right
    constructor
    · rfl
    · simp
  | (k0, ids0) :: rest => by
    unfold bucketsAdd
    by_cases hk : k0 = k
    · left
      rw [if_pos hk]
      exact ⟨rfl, by rw [List.map_cons]; exact hk ▸ List.mem_cons_self k0 _⟩
    · rw [if_neg hk]
      rcases bucketsAdd_keys k i rest with ⟨he, hm⟩ | ⟨he, hm⟩
      · left
        rw [List.map_cons, List.map_cons, he]
        exact ⟨rfl, List.mem_cons_of_mem _ hm⟩
      · right
        rw [List.map_cons, List.map_cons, he, List.cons_append]
        refine ⟨rfl, ?_⟩
        intro hc
        rcases List.mem_cons.1 hc with hc | hc
        · exact hk hc.symm
        · exact hm hc

theorem foldl_buckets_keys_nodup (score : Player → HalfPts) :
    ∀ (ps : List Player) (bs : List (HalfPts × List PyStr)),
      (bs.map Prod.fst).Nodup →
      ((ps.foldl (fun bs p => bucketsAdd bs (score p) p.national_id) bs).map
        Prod.fst).Nodup
  | [], bs, h => h
  | p :: ps, bs, h => by
    rw [List.foldl_cons]
    refine foldl_buckets_keys_nodup score ps _ ?_
    rcases bucketsAdd_keys (score p) p.national_id bs with ⟨he, _⟩ | ⟨he, hm⟩
    · rw [he]; exact h
    · rw [he]
      simp only [List.nodup_append, List.nodup_cons, List.not_mem_nil,
        not_false_iff, List.nodup_nil, true_and, and_true]
      simp only [List.disjoint_singleton]
      exact ⟨by trivial, hm⟩

theorem keys_map_find :
    ∀ bs : List (HalfPts × List PyStr), ((bs.map Prod.fst).Nodup) →
      (bs.map Prod.fst).map (bucketFind bs) = bs.map Prod.snd
  | [], _ => rfl
  | (k0, ids0) :: rest, hnd => by
    rw [List.map_cons, List.map_cons, List.map_cons]
    have hhead : bucketFind ((k0, ids0) :: rest) k0 = ids0 := by
      unfold bucketFind
      rw [List.find?_cons_of_pos _ (by simp)]
    have hk0 : k0 ∉ rest.map Prod.fst := (List.nodup_cons.1 (by
      rw [List.map_cons] at hnd; exact hnd)).1
    have htail : (rest.map Prod.fst).map (bucketFind ((k0, ids0) :: rest)) =
        (rest.map Prod.fst).map (bucketFind rest) := by
      refine List.map_congr_left ?_
      intro k hkm
      unfold bucketFind
      rw [List.find?_cons_of_neg _ (by
        simp only [decide_eq_true_eq]
        intro hc
        exact hk0 (hc ▸ hkm))]
    rw [hhead, htail,
      keys_map_find rest (List.nodup_cons.1 (by rw [List.map_cons] at hnd; exact hnd)).2]

theorem foldl_append_flatten (f : HalfPts → List PyStr) :
    ∀ (l : List HalfPts) (acc : List PyStr),
      l.foldl (fun acc k => acc ++ f k) acc = acc ++ (l.map f).flatten
  | [], acc => by simp
  | k :: l, acc => by
    rw [List.foldl_cons, foldl_append_flatten f l (acc ++ f k), List.map_cons,
      List.flatten_cons, List.append_assoc]

theorem flatten_perm_of_forall (f g : HalfPts → List PyStr) :
    ∀ l : List HalfPts, (∀ k ∈ l, (f k).Perm (g k)) →
      ((l.map f).flatten).Perm ((l.map g).flatten)
  | [], _ => .refl _
  | k :: l, h => by
    rw [List.map_cons, List.map_cons, List.flatten_cons, List.flatten_cons]
    exact (h k (List.mem_cons_self k l)).append
      (flatten_perm_of_forall f g l (fun x hx => h x (List.mem_cons_of_mem k hx)))

theorem perm_flatten {l1 l2 : List (List PyStr)} (h : l1.Perm l2) :
    l1.flatten.Perm l2.flatten := by
  induction h with
  | nil => exact .refl _
  | cons x _ ih =>
    rw [List.flatten_cons, List.flatten_cons]
    exact ih.append_left x
  | swap x y l =>
    rw [List.flatten_cons, List.flatten_cons, List.flatten_cons, List.flatten_cons,
      ← List.append_assoc, ← List.append_assoc]
    exact List.perm_append_comm.append_right l.flatten
  | trans _ _ ih1 ih2 => exact ih1.trans ih2

theorem insertDesc_perm (x : HalfPts) :
    ∀ l : List HalfPts, (insertDesc x l).Perm (x :: l)
  | [] => .refl _
  | y :: ys => by
    unfold insertDesc
    by_cases hx : x ≥ y
    · rw [if_pos hx]
    · rw [if_neg hx]
      exact ((insertDesc_perm x ys).cons y).trans (List.Perm.swap x y ys)

theorem sortDesc_perm : ∀ l : List HalfPts, (sortDesc l).Perm l
  | [] => .refl _
  | x :: xs => by
    unfold sortDesc at *
    rw [List.foldr_cons]
    exact (insertDesc_perm x _).trans ((sortDesc_perm xs).cons x)

/-- `sorted_player_ids_by_score` lists each roster id exactly once (in some
order), whatever the in-bucket shuffles do. -/
theorem sorted_ids_perm (t : Tournament) (shuf : List PyStr → List PyStr)
    (hperm : ∀ l, (shuf l).Perm l) :
    (t.sorted_player_ids_by_score shuf).Perm (t.players.map Player.national_id) := by
  unfold Tournament.sorted_player_ids_by_score
  have hkeys : ((t.players.foldl (fun bs p =>
      bucketsAdd bs (dictGet t.scores p.national_id 0) p.national_id) []).map
      Prod.fst).Nodup :=
    foldl_buckets_keys_nodup _ t.players [] List.nodup_nil
  have helems := foldl_buckets_elems
    (fun p => dictGet t.scores p.national_id 0) t.players []
  rw [foldl_append_flatten, List.nil_append]
  refine (flatten_perm_of_forall _ _ _ (fun k _ => hperm _)).trans ?_
  refine (perm_flatten ((sortDesc_perm _).map _)).trans ?_
  rw [keys_map_find _ hkeys]
  exact helems.trans (by simp [bucketElems])

-- ---------------------------------------------------------------------
-- operation-level facts feeding the reachability invariant
-- ---------------------------------------------------------------------

theorem auto_set_exempt_err (m : Match) :
    m.auto_set_exempt = .error (pystr "KeyError: exempt") := by
  unfold Match.auto_set_exempt
  rw [show MATCH_RESULT_POINTS (pystr "exempt") = none from by decide]

theorem Match_new_none (p : Player) :
    Match.new p none = .error (pystr "KeyError: exempt") := by
  unfold Match.new
  dsimp only [Match.is_exempt, Option.isNone]
  rw [if_pos rfl, auto_set_exempt_err]

theorem add_exempt_bye_ne_ok (t : Tournament) (rnd : Round) (p : Player)
    (r' : Round × Tournament) : t.add_exempt_bye rnd p ≠ .ok r' := by
  intro h
  unfold Tournament.add_exempt_bye at h
  rw [Match_new_none p] at h
  cases h

theorem set_result_by_code_players {m m' : Match} {code : PyStr}
    (h : m.set_result_by_code code = .ok m') :
    m'.player1 = m.player1 ∧ m'.player2 = m.player2 := by
  unfold Match.set_result_by_code at h
  dsimp only at h
  rcases hc : MATCH_RESULT_CODES (pyUpper (pyStrip code)) with _ | ⟨label⟩
  · rw [hc] at h
    cases h
  · rw [hc] at h
    dsimp only at h
    by_cases h1 : label = pystr "exempt"
    · rw [if_pos h1, auto_set_exempt_err] at h
      cases h
    · rw [if_neg h1] at h
      by_cases h2 : m.is_exempt = true
      · rw [if_pos h2, auto_set_exempt_err] at h
        cases h
      · rw [if_neg h2] at h
        split at h
        · cases h
          exact ⟨rfl, rfl⟩
        · cases h

theorem play_match_players {m m' : Match} {s1 s2 : HalfPts}
    (h : m.play_match s1 s2 = .ok m') :
    m'.player1 = m.player1 ∧ m'.player2 = m.player2 := by
  unfold Match.play_match at h
  split_ifs at h with h1 h2 h3 h4
  · rw [auto_set_exempt_err] at h
    cases h
  · cases h
    exact ⟨rfl, rfl⟩
  · cases h
    exact ⟨rfl, rfl⟩
  · cases h
    exact ⟨rfl, rfl⟩

theorem apply_match_points_fields (t : Tournament) (m : Match) :
    (t.apply_match_points m).players = t.players ∧
    (t.apply_match_points m).rounds = t.rounds ∧
    (t.apply_match_points m).past_pairs = t.past_pairs ∧
    (t.apply_match_points m).description = t.description := by
  unfold Tournament.apply_match_points
  cases m.player2 <;> exact ⟨rfl, rfl, rfl, rfl⟩

theorem rollbackPoints_fields (t : Tournament) (m : Match) :
    (rollbackPoints t m).players = t.players ∧
    (rollbackPoints t m).rounds = t.rounds ∧
    (rollbackPoints t m).past_pairs = t.past_pairs ∧
    (rollbackPoints t m).description = t.description := by
  unfold rollbackPoints
  cases m.player2 <;> exact ⟨rfl, rfl, rfl, rfl⟩

theorem foldl_apply_fields :
    ∀ (ms : List Match) (t : Tournament),
      (ms.foldl Tournament.apply_match_points t).players = t.players ∧
      (ms.foldl Tournament.apply_match_points t).rounds = t.rounds ∧
      (ms.foldl Tournament.apply_match_points t).past_pairs = t.past_pairs ∧
      (ms.foldl Tournament.apply_match_points t).description = t.description
  | [], t => ⟨rfl, rfl, rfl, rfl⟩
  | m :: ms, t => by
    rw [List.foldl_cons]
    obtain ⟨a1, a2, a3, a4⟩ := foldl_apply_fields ms (t.apply_match_points m)
    obtain ⟨b1, b2, b3, b4⟩ := apply_match_points_fields t m
    exact ⟨a1.trans b1, a2.trans b2, a3.trans b3, a4.trans b4⟩

theorem mark_launched_fields (t : Tournament) (today : Date) (now : PyStr) :
    (t.mark_launched today now).players = t.players ∧
    (t.mark_launched today now).rounds = t.rounds ∧
    (t.mark_launched today now).past_pairs = t.past_pairs ∧
    (t.mark_launched today now).description = t.description ∧
    (t.mark_launched today now).scores = t.scores := by
  unfold Tournament.mark_launched
  dsimp only
  split_ifs <;> exact ⟨rfl, rfl, rfl, rfl, rfl⟩

theorem mark_finished_fields (t : Tournament) (today : Date) (now : PyStr) :
    (t.mark_finished today now).players = t.players ∧
    (t.mark_finished today now).rounds = t.rounds ∧
    (t.mark_finished today now).past_pairs = t.past_pairs ∧
    (t.mark_finished today now).description = t.description := by
  unfold Tournament.mark_finished
  dsimp only
  split_ifs <;> exact ⟨rfl, rfl, rfl, rfl⟩

theorem remember_pair_fields (t : Tournament) (a b : PyStr) :
    (t.remember_pair a b).players = t.players ∧
    (t.remember_pair a b).rounds = t.rounds ∧
    (t.remember_pair a b).scores = t.scores ∧
    (t.remember_pair a b).description = t.description := by
  unfold Tournament.remember_pair
  split_ifs <;> exact ⟨rfl, rfl, rfl, rfl⟩

theorem remember_pair_pastOK (t : Tournament) (a b : PyStr) (hab : a ≠ b)
    (h : PastOK t.past_pairs) : PastOK (t.remember_pair a b).past_pairs := by
  unfold Tournament.remember_pair
  split_ifs with hmem
  · exact h
  · have hmem' : pairMem t.past_pairs a b = false := Bool.eq_false_iff.2 hmem
    show PastOK (t.past_pairs ++ [(a, b)])
    constructor
    · intro q hq
      rcases List.mem_append.1 hq with hq | hq
      · exact h.1 q hq
      · rcases List.mem_singleton.1 hq with rfl
        exact hab
    · rw [List.pairwise_append]
      refine ⟨h.2, List.pairwise_singleton _ _, ?_⟩
      intro p hp q hq
      rcases List.mem_singleton.1 hq with rfl
      unfold pairMem at hmem'
      rw [Bool.eq_false_iff] at hmem'
      constructor
      · rintro ⟨h1, h2⟩
        exact hmem' (List.any_eq_true.2 ⟨p, hp, by
          simp only [Bool.or_eq_true, Bool.and_eq_true, decide_eq_true_eq]
          exact .inl ⟨h1, h2⟩⟩)
      · rintro ⟨h1, h2⟩
        exact hmem' (List.any_eq_true.2 ⟨p, hp, by
          simp only [Bool.or_eq_true, Bool.and_eq_true, decide_eq_true_eq]
          exact .inr ⟨h1, h2⟩⟩)

theorem InvT_setMatchAt {d : Date} {t : Tournament} (i j : Nat) {m' : Match}
    (hpl : MatchOK t.players m') (h : InvT d t) : InvT d (setMatchAt t i j m') := by
  obtain ⟨i1, i2, i3, i4, i5⟩ := h
  refine ⟨i1, i2, ?_, i4, i5⟩
  intro r hr mm hmm
  unfold setMatchAt at hr
  dsimp only at hr
  rcases hg : t.rounds.get? i with _ | ⟨r0⟩
  · rw [hg] at hr
    exact i3 r hr mm hmm
  · rw [hg] at hr
    rcases List.mem_or_eq_of_mem_set hr with hr' | rfl
    · exact i3 r hr' mm hmm
    · dsimp only at hmm
      rcases List.mem_or_eq_of_mem_set hmm with hm' | rfl
      · exact i3 r0 (List.get?_mem hg) mm hm'
      · exact hpl

theorem InvT_endRoundAt {d : Date} {t : Tournament} (i : Nat) (now : PyStr)
    (h : InvT d t) : InvT d (endRoundAt t i now) := by
  obtain ⟨i1, i2, i3, i4, i5⟩ := h
  refine ⟨i1, i2, ?_, i4, i5⟩
  intro r hr mm hmm
  unfold endRoundAt at hr
  dsimp only at hr
  rcases hg : t.rounds.get? i with _ | ⟨r0⟩
  · rw [hg] at hr
    exact i3 r hr mm hmm
  · rw [hg] at hr
    rcases List.mem_or_eq_of_mem_set hr with hr' | rfl
    · exact i3 r hr' mm hmm
    · exact i3 r0 (List.get?_mem hg) mm hmm

theorem add_player_ok {t : Tournament} {p : Player} {t' : Tournament}
    (h : t.add_player p = .ok t') :
    t' = { t with players := t.players ++ [p]
                  scores := dictSet t.scores p.national_id 0 } ∧
    t.has_player p.national_id = false := by
  unfold Tournament.add_player at h
  split_ifs at h with h1 h2
  cases h
  exact ⟨rfl, Bool.eq_false_iff.2 h2⟩

theorem add_player_id_ok {t : Tournament} {nid : PyStr}
    {lookup : PyStr → Option Player} {p : Player} {t' : Tournament}
    (hl : lookup nid = some p) (h : t.add_player_id nid lookup = .ok t') :
    t' = { t with players := t.players ++ [p] } ∧
    t.has_player nid = false := by
  unfold Tournament.add_player_id at h
  split_ifs at h with h1 h2
  rw [hl] at h
  cases h
  exact ⟨rfl, Bool.eq_false_iff.2 h2⟩

theorem pairAdjacent_inv (ps : List Player) :
    ∀ (pool : List Player) (rnd : Round) (t : Tournament),
      t.players = ps →
      (∀ p ∈ pool, p ∈ ps) →
      (pool.map Player.national_id).Nodup →
      (∀ m ∈ rnd.«matches», MatchOK ps m) →
      PastOK t.past_pairs →
      (pairAdjacent rnd t pool).2.players = ps ∧
      (pairAdjacent rnd t pool).2.rounds = t.rounds ∧
      (pairAdjacent rnd t pool).2.scores = t.scores ∧
      (pairAdjacent rnd t pool).2.description = t.description ∧
      PastOK (pairAdjacent rnd t pool).2.past_pairs ∧
      (∀ m ∈ (pairAdjacent rnd t pool).1.«matches», MatchOK ps m)
  | [], rnd, t => by
    intro hps _ _ hrnd hpast
    exact ⟨hps, rfl, rfl, rfl, hpast, hrnd⟩
  | [p], rnd, t => by
    intro hps _ _ hrnd hpast
    exact ⟨hps, rfl, rfl, rfl, hpast, hrnd⟩
  | p1 :: p2 :: rest, rnd, t => by
    intro hps hmem hnd hrnd hpast
    show _ ∧ _
    have hne : p1.national_id ≠ p2.national_id := by
      rw [List.map_cons, List.map_cons, List.nodup_cons] at hnd
      intro hc
      exact hnd.1 (hc ▸ List.mem_cons_self p2.national_id _)
    obtain ⟨f1, f2, f3, f4⟩ :=
      remember_pair_fields t p1.national_id p2.national_id
    have ih := pairAdjacent_inv ps rest
      (rnd.add_match (Match.mk2 p1 p2))
      (t.remember_pair p1.national_id p2.national_id)
      (f1.trans hps)
      (fun q hq => hmem q (List.mem_cons_of_mem p1 (List.mem_cons_of_mem p2 hq)))
      (by
        rw [List.map_cons, List.map_cons] at hnd
        exact (List.nodup_cons.1 (List.nodup_cons.1 hnd).2).2)
      (by
        intro m hm
        unfold Round.add_match at hm
        dsimp only at hm
        rcases List.mem_append.1 hm with hm | hm
        · exact hrnd m hm
        · rcases List.mem_singleton.1 hm with rfl
          exact ⟨hmem p1 (List.mem_cons_self p1 _),
            p2, rfl, hmem p2 (List.mem_cons_of_mem p1 (List.mem_cons_self p2 _))⟩)
      (remember_pair_pastOK t p1.national_id p2.national_id hne hpast)
    obtain ⟨g1, g2, g3, g4, g5, g6⟩ := ih
    exact ⟨g1, g2.trans f2, g3.trans f3, g4.trans f4, g5, g6⟩

theorem suffixAfterFirst_not_mem :
    ∀ (l : List PyStr) (x : PyStr) (suf : List PyStr),
      l.Nodup → suffixAfterFirst l x = some suf → x ∉ suf
  | [], x, suf, _, h => by cases h
  | y :: ys, x, suf, hnd, h => by
    unfold suffixAfterFirst at h
    split_ifs at h with hy
    · cases h
      subst hy
      exact (List.nodup_cons.1 hnd).1
    · exact suffixAfterFirst_not_mem ys x suf (List.nodup_cons.1 hnd).2 h

theorem find_partner_ne {t : Tournament} {p1 : PyStr} {all used : List PyStr}
    {p2 : PyStr} (hnd : all.Nodup) (h : t.find_partner p1 all used = some p2) :
    p2 ≠ p1 := by
  unfold Tournament.find_partner at h
  rcases hs : suffixAfterFirst all p1 with _ | ⟨suf⟩
  · rw [hs] at h
    cases h
  · rw [hs] at h
    have hmem := List.mem_of_find?_eq_some h
    intro hc
    exact suffixAfterFirst_not_mem all p1 suf hnd hs (hc ▸ hmem)

theorem pairLoop_inv (ps : List Player) (all : List PyStr) (hall : all.Nodup) :
    ∀ (rest used : List PyStr) (rnd : Round) (t : Tournament)
      (res : Round × Tournament),
      t.players = ps →
      (∀ m ∈ rnd.«matches», MatchOK ps m) →
      PastOK t.past_pairs →
      pairLoop all rest used rnd t = .ok res →
      res.2.players = ps ∧ res.2.rounds = t.rounds ∧
      res.2.scores = t.scores ∧ res.2.description = t.description ∧
      PastOK res.2.past_pairs ∧
      (∀ m ∈ res.1.«matches», MatchOK ps m)
  | [], used, rnd, t, res => by
    intro hps hrnd hpast h
    unfold pairLoop at h
    cases h
    exact ⟨hps, rfl, rfl, rfl, hpast, hrnd⟩
  | p1 :: rest, used, rnd, t, res => by
    intro hps hrnd hpast h
    unfold pairLoop at h
    split_ifs at h with hused
    · exact pairLoop_inv ps all hall rest used rnd t res hps hrnd hpast h
    · dsimp only at h
      rcases hfp : t.find_partner p1 all used with _ | ⟨p2⟩
      · rw [hfp] at h
        dsimp only at h
        rcases hfb : rest.find? (fun pid => !used.contains pid && !(pid == p1)) with
          _ | ⟨p2⟩
        · rw [hfb] at h
          exact pairLoop_inv ps all hall rest used rnd t res hps hrnd hpast h
        · rw [hfb] at h
          dsimp only at h
          have hp2ne : p2 ≠ p1 := by
            have hq := find?_pred _ rest p2 hfb
            simp only [Bool.and_eq_true, Bool.not_eq_true'] at hq
            intro hc
            rw [hc] at hq
            simp at hq
          rcases hg1 : t.get_player_by_id p1 with _ | ⟨pl1⟩
          · rw [hg1] at h
            cases h
          · rw [hg1] at h
            rcases hg2 : t.get_player_by_id p2 with _ | ⟨pl2⟩
            · rw [hg2] at h
              cases h
            · rw [hg2] at h
              have hne : p1 ≠ p2 := fun hc => hp2ne hc.symm
              obtain ⟨f1, f2, f3, f4⟩ := remember_pair_fields t p1 p2
              have hpl1 : pl1 ∈ ps := by
                unfold Tournament.get_player_by_id at hg1
                exact hps ▸ List.mem_of_find?_eq_some hg1
              have hpl2 : pl2 ∈ ps := by
                unfold Tournament.get_player_by_id at hg2
                exact hps ▸ List.mem_of_find?_eq_some hg2
              obtain ⟨g1, g2, g3, g4, g5, g6⟩ :=
                pairLoop_inv ps all hall rest (used ++ [p1, p2])
                  (rnd.add_match (Match.mk2 pl1 pl2)) (t.remember_pair p1 p2) res
                  (f1.trans hps)
                  (by
                    intro m hm
                    unfold Round.add_match at hm
                    dsimp only at hm
                    rcases List.mem_append.1 hm with hm | hm
                    · exact hrnd m hm
                    · rcases List.mem_singleton.1 hm with rfl
                      exact ⟨hpl1, pl2, rfl, hpl2⟩)
                  (remember_pair_pastOK t p1 p2 hne hpast) h
              exact ⟨g1, g2.trans f2, g3.trans f3, g4.trans f4, g5, g6⟩
      · rw [hfp] at h
        dsimp only at h
        have hp2ne : p2 ≠ p1 := find_partner_ne hall hfp
        rcases hg1 : t.get_player_by_id p1 with _ | ⟨pl1⟩
        · rw [hg1] at h
          cases h
        · rw [hg1] at h
          rcases hg2 : t.get_player_by_id p2 with _ | ⟨pl2⟩
          · rw [hg2] at h
            cases h
          · rw [hg2] at h
            have hne : p1 ≠ p2 := fun hc => hp2ne hc.symm
            obtain ⟨f1, f2, f3, f4⟩ := remember_pair_fields t p1 p2
            have hpl1 : pl1 ∈ ps := by
              unfold Tournament.get_player_by_id at hg1
              exact hps ▸ List.mem_of_find?_eq_some hg1
            have hpl2 : pl2 ∈ ps := by
              unfold Tournament.get_player_by_id at hg2
              exact hps ▸ List.mem_of_find?_eq_some hg2
            obtain ⟨g1, g2, g3, g4, g5, g6⟩ :=
              pairLoop_inv ps all hall rest (used ++ [p1, p2])
                (rnd.add_match (Match.mk2 pl1 pl2)) (t.remember_pair p1 p2) res
                (f1.trans hps)
                (by
                  intro m hm
                  unfold Round.add_match at hm
                  dsimp only at hm
                  rcases List.mem_append.1 hm with hm | hm
                  · exact hrnd m hm
                  · rcases List.mem_singleton.1 hm with rfl
                    exact ⟨hpl1, pl2, rfl, hpl2⟩)
                (remember_pair_pastOK t p1 p2 hne hpast) h
            exact ⟨g1, g2.trans f2, g3.trans f3, g4.trans f4, g5, g6⟩

theorem tiebreakPairs_inv (t : Tournament) :
    ∀ (ids : List PyStr) (rnd rnd' : Round),
      tiebreakPairs t rnd ids = .ok rnd' →
      (∀ m ∈ rnd.«matches», MatchOK t.players m) →
      (∀ m ∈ rnd'.«matches», MatchOK t.players m)
  | [], rnd, rnd', h, hrnd => by
    unfold tiebreakPairs at h
    cases h
    exact hrnd
  | [a], rnd, rnd', h, hrnd => by
    unfold tiebreakPairs at h
    cases h
  | a :: b :: rest, rnd, rnd', h, hrnd => by
    unfold tiebreakPairs at h
    rcases hg1 : t.get_player_by_id a with _ | ⟨pa⟩
    · rw [hg1] at h
      cases h
    · rw [hg1] at h
      rcases hg2 : t.get_player_by_id b with _ | ⟨pb⟩
      · rw [hg2] at h
        cases h
      · rw [hg2] at h
        refine tiebreakPairs_inv t rest _ rnd' h ?_
        intro m hm
        unfold Round.add_match at hm
        dsimp only at hm
        rcases List.mem_append.1 hm with hm | hm
        · exact hrnd m hm
        · rcases List.mem_singleton.1 hm with rfl
          refine ⟨?_, pb, rfl, ?_⟩
          · unfold Tournament.get_player_by_id at hg1
            exact List.mem_of_find?_eq_some hg1
          · unfold Tournament.get_player_by_id at hg2
            exact List.mem_of_find?_eq_some hg2

theorem start_first_round_ok {t : Tournament} {today : Date} {now : PyStr}
    {shufP : List Player → List Player} {t' : Tournament}
    (h : t.start_first_round today now shufP = .ok t') :
    ∃ rnd3 t3,
      pairAdjacent (Round.new 1 now)
        { t.mark_launched today now with current_round_number := 1 }
        (shufP (t.mark_launched today now).players) = (rnd3, t3) ∧
      t' = { t3 with rounds := t3.rounds ++ [rnd3] } := by
  unfold Tournament.start_first_round at h
  split_ifs at h with h0
  rcases hv : t.validate_roster_before_launch with _ | ⟨e⟩
  swap
  · rw [hv] at h
    cases h
  · rw [hv] at h
    dsimp only at h
    rcases hpa : pairAdjacent (Round.new 1 now)
        { t.mark_launched today now with current_round_number := 1 }
        (shufP (t.mark_launched today now).players) with ⟨rnd3, t3⟩
    rw [hpa] at h
    dsimp only at h
    split_ifs at h with hodd
    · rcases hgl : (shufP (t.mark_launched today now).players).getLast? with _ | ⟨lastP⟩
      · rw [hgl] at h
        dsimp only at h
        cases h
        exact ⟨rnd3, t3, rfl, rfl⟩
      · rw [hgl] at h
        dsimp only at h
        rcases hab : t3.add_exempt_bye rnd3 lastP with ⟨e⟩ | ⟨ok⟩
        · rw [hab] at h
          cases h
        · exact absurd hab (add_exempt_bye_ne_ok t3 rnd3 lastP ok)
    · cases h
      exact ⟨rnd3, t3, rfl, rfl⟩

theorem start_next_round_ok {t : Tournament} {now : PyStr}
    {shuf : List PyStr → List PyStr} {t' : Tournament}
    (h : t.start_next_round now shuf = .ok t') :
    ∃ rndF tF,
      pairLoop
        (Tournament.sorted_player_ids_by_score
          { t with current_round_number := t.current_round_number + 1 } shuf)
        (Tournament.sorted_player_ids_by_score
          { t with current_round_number := t.current_round_number + 1 } shuf)
        [] (Round.new (t.current_round_number + 1) now)
        { t with current_round_number := t.current_round_number + 1 } =
          .ok (rndF, tF) ∧
      t' = { tF with rounds := tF.rounds ++ [rndF] } := by
  unfold Tournament.start_next_round at h
  split_ifs at h with h0 h1
  dsimp only at h
  split_ifs at h with hodd
  · rcases hgl : (Tournament.sorted_player_ids_by_score
        { t with current_round_number := t.current_round_number + 1 } shuf).getLast?
        with _ | ⟨exemptId⟩
    · rw [hgl] at h
      dsimp only at h
      rcases hpl : pairLoop
          (Tournament.sorted_player_ids_by_score
            { t with current_round_number := t.current_round_number + 1 } shuf)
          (Tournament.sorted_player_ids_by_score
            { t with current_round_number := t.current_round_number + 1 } shuf)
          [] (Round.new (t.current_round_number + 1) now)
          { t with current_round_number := t.current_round_number + 1 }
          with ⟨e⟩ | ⟨rndF, tF⟩
      · rw [hpl] at h
        cases h
      · rw [hpl] at h
        cases h
        exact ⟨rndF, tF, rfl, rfl⟩
    · rw [hgl] at h
      dsimp only at h
      rcases hab : Tournament.add_exempt_bye_by_id
          { t with current_round_number := t.current_round_number + 1 }
          (Round.new (t.current_round_number + 1) now) exemptId with ⟨e⟩ | ⟨ok⟩
      · rw [hab] at h
        cases h
      · exact absurd hab (add_exempt_bye_by_id_ne_ok _ _ exemptId ok)
  · dsimp only at h
    rcases hpl : pairLoop
        (Tournament.sorted_player_ids_by_score
          { t with current_round_number := t.current_round_number + 1 } shuf)
        (Tournament.sorted_player_ids_by_score
          { t with current_round_number := t.current_round_number + 1 } shuf)
        [] (Round.new (t.current_round_number + 1) now)
        { t with current_round_number := t.current_round_number + 1 }
        with ⟨e⟩ | ⟨rndF, tF⟩
    · rw [hpl] at h
      cases h
    · rw [hpl] at h
      cases h
      exact ⟨rndF, tF, rfl, rfl⟩

theorem start_tiebreak_round_ok {t : Tournament} {leader_ids : List PyStr}
    {now : PyStr} {shuf : List PyStr → List PyStr} {t' : Tournament}
    (h : t.start_tiebreak_round leader_ids now shuf = .ok t') :
    ∃ ids rndF,
      tiebreakPairs { t with current_round_number := t.current_round_number + 1 }
        (Round.new (t.current_round_number + 1) now) ids = .ok rndF ∧
      t' = { t with current_round_number := t.current_round_number + 1
                    rounds := t.rounds ++ [rndF] } := by
  unfold Tournament.start_tiebreak_round at h
  split_ifs at h with h0
  dsimp only at h
  split_ifs at h with hodd
  · rcases hgl : (shuf (normalizeLeaderIds leader_ids)).getLast? with _ | ⟨byeId⟩
    · rw [hgl] at h
      dsimp only at h
      rcases htp : tiebreakPairs
          { t with current_round_number := t.current_round_number + 1 }
          (Round.new (t.current_round_number + 1) now)
          (shuf (normalizeLeaderIds leader_ids)) with ⟨e⟩ | ⟨rndF⟩
      · rw [htp] at h
        cases h
      · rw [htp] at h
        cases h
        exact ⟨shuf (normalizeLeaderIds leader_ids), rndF, htp, rfl⟩
    · rw [hgl] at h
      dsimp only at h
      rcases hab : Tournament.add_exempt_bye_by_id
          { t with current_round_number := t.current_round_number + 1 }
          (Round.new (t.current_round_number + 1) now) byeId with ⟨e⟩ | ⟨ok⟩
      · rw [hab] at h
        cases h
      · exact absurd hab (add_exempt_bye_by_id_ne_ok _ _ byeId ok)
  · dsimp only at h
    rcases htp : tiebreakPairs
        { t with current_round_number := t.current_round_number + 1 }
        (Round.new (t.current_round_number + 1) now)
        (shuf (normalizeLeaderIds leader_ids)) with ⟨e⟩ | ⟨rndF⟩
    · rw [htp] at h
      cases h
    · rw [htp] at h
      cases h
      exact ⟨shuf (normalizeLeaderIds leader_ids), rndF, htp, rfl⟩

/-- Every reachable tournament state satisfies the serialization
invariant. -/
theorem InvT_of_reachable : ∀ {d : Date} {t : Tournament}, Reachable d t → InvT d t := by
  intro d t h
  induction h with
  | init d loc sd ed desc nr =>
    exact ⟨fun p hp => absurd hp (List.not_mem_nil p), List.nodup_nil,
      fun r hr => absurd hr (List.not_mem_nil r),
      ⟨fun q hq => absurd hq (List.not_mem_nil q), List.Pairwise.nil⟩,
      pyStrip_idem desc⟩
  | tick d' hle ht ih =>
    obtain ⟨i1, i2, i3, i4, i5⟩ := ih
    exact ⟨fun p hp => PlayerStored_mono hle (i1 p hp), i2, i3, i4, i5⟩
  | @add_player d t p t' hp hok ht ih =>
    obtain ⟨heq, hhas⟩ := add_player_ok hok
    subst heq
    obtain ⟨i1, i2, i3, i4, i5⟩ := ih
    have hnot : p.national_id ∉ t.players.map Player.national_id := by
      intro hc
      obtain ⟨q, hq, he⟩ := List.mem_map.1 hc
      unfold Tournament.has_player at hhas
      rw [Bool.eq_false_iff] at hhas
      exact hhas (List.any_eq_true.2 ⟨q, hq, decide_eq_true he⟩)
    refine ⟨?_, ?_, ?_, i4, i5⟩
    · intro q hq
      rcases List.mem_append.1 hq with hq | hq
      · exact i1 q hq
      · rcases List.mem_singleton.1 hq with rfl
        exact PlayerFromCtor_stored hp
    · show (List.map Player.national_id (t.players ++ [p])).Nodup
      rw [List.map_append]
      exact List.Nodup.append i2 (List.nodup_singleton _)
        (by intro a ha hb
            rcases List.mem_singleton.1 hb with rfl
            exact hnot ha)
    · intro r hr m hm
      obtain ⟨m1, p2, hp2, m2⟩ := i3 r hr m hm
      exact ⟨List.mem_append_left _ m1, p2, hp2, List.mem_append_left _ m2⟩
  | @add_player_id d t nid lookup p t' hl hnid hp hok ht ih =>
    obtain ⟨heq, hhas⟩ := add_player_id_ok hl hok
    subst heq
    obtain ⟨i1, i2, i3, i4, i5⟩ := ih
    have hnot : p.national_id ∉ t.players.map Player.national_id := by
      intro hc
      obtain ⟨q, hq, he⟩ := List.mem_map.1 hc
      unfold Tournament.has_player at hhas
      rw [Bool.eq_false_iff] at hhas
      exact hhas (List.any_eq_true.2 ⟨q, hq, decide_eq_true (he.trans hnid)⟩)
    refine ⟨?_, ?_, ?_, i4, i5⟩
    · intro q hq
      rcases List.mem_append.1 hq with hq | hq
      · exact i1 q hq
      · rcases List.mem_singleton.1 hq with rfl
        exact PlayerFromCtor_stored hp
    · show (List.map Player.national_id (t.players ++ [p])).Nodup
      rw [List.map_append]
      exact List.Nodup.append i2 (List.nodup_singleton _)
        (by intro a ha hb
            rcases List.mem_singleton.1 hb with rfl
            exact hnot ha)
    · intro r hr m hm
      obtain ⟨m1, p2, hp2, m2⟩ := i3 r hr m hm
      exact ⟨List.mem_append_left _ m1, p2, hp2, List.mem_append_left _ m2⟩
  | set_description text ht ih =>
    obtain ⟨i1, i2, i3, i4, i5⟩ := ih
    exact ⟨i1, i2, i3, i4, pyStrip_idem text⟩
  | mark_launched now ht ih =>
    exact InvT_congr (mark_launched_fields _ _ _).1 (mark_launched_fields _ _ _).2.1
      (mark_launched_fields _ _ _).2.2.1 (mark_launched_fields _ _ _).2.2.2.1 ih
  | mark_finished now ht ih =>
    exact InvT_congr (mark_finished_fields _ _ _).1 (mark_finished_fields _ _ _).2.1
      (mark_finished_fields _ _ _).2.2.1 (mark_finished_fields _ _ _).2.2.2 ih
  | set_winner w hw ht ih =>
    exact InvT_congr rfl rfl rfl rfl ih
  | update_scores i r hr ht ih =>
    exact InvT_congr (foldl_apply_fields _ _).1 (foldl_apply_fields _ _).2.1
      (foldl_apply_fields _ _).2.2.1 (foldl_apply_fields _ _).2.2.2 ih
  | apply_points i j r m hr hm ht ih =>
    exact InvT_congr (apply_match_points_fields _ _).1 (apply_match_points_fields _ _).2.1
      (apply_match_points_fields _ _).2.2.1 (apply_match_points_fields _ _).2.2.2 ih
  | rollback_points i j r m hr hm ht ih =>
    exact InvT_congr (rollbackPoints_fields _ _).1 (rollbackPoints_fields _ _).2.1
      (rollbackPoints_fields _ _).2.2.1 (rollbackPoints_fields _ _).2.2.2 ih
  | @score_match d t i j r m m' code hr hm hok ht ih =>
    refine InvT_setMatchAt i j ?_ ih
    obtain ⟨hpm1, p2, hp2, hpm2⟩ := ih.2.2.1 r (List.get?_mem hr) m (List.get?_mem hm)
    obtain ⟨e1, e2⟩ := set_result_by_code_players hok
    exact ⟨by rw [e1]; exact hpm1, p2, by rw [e2]; exact hp2, hpm2⟩
  | @play_match d t i j r m m' s1 s2 hr hm hok ht ih =>
    refine InvT_setMatchAt i j ?_ ih
    obtain ⟨hpm1, p2, hp2, hpm2⟩ := ih.2.2.1 r (List.get?_mem hr) m (List.get?_mem hm)
    obtain ⟨e1, e2⟩ := play_match_players hok
    exact ⟨by rw [e1]; exact hpm1, p2, by rw [e2]; exact hp2, hpm2⟩
  | end_round i now ht ih =>
    exact InvT_endRoundAt i now ih
  | @first_round d t now shufP t' hperm hok ht ih =>
    obtain ⟨rnd3, t3, hpa, heq⟩ := start_first_round_ok hok
    subst heq
    obtain ⟨i1, i2, i3, i4, i5⟩ := ih
    obtain ⟨m1, m2, m3, m4, m5⟩ := mark_launched_fields t d now
    have hpool : ∀ p ∈ shufP (t.mark_launched d now).players, p ∈ t.players := by
      intro p hp
      rw [← m1]
      exact (hperm _).mem_iff.1 hp
    have hpoolnd : ((shufP (t.mark_launched d now).players).map
        Player.national_id).Nodup :=
      ((hperm _).map Player.national_id).nodup_iff.2 (by rw [m1]; exact i2)
    obtain ⟨g1, g2, g3, g4, g5, g6⟩ := pairAdjacent_inv t.players
      (shufP (t.mark_launched d now).players) (Round.new 1 now)
      { t.mark_launched d now with current_round_number := 1 }
      (by show (t.mark_launched d now).players = t.players; exact m1)
      hpool hpoolnd
      (fun m hm => absurd hm (List.not_mem_nil m))
      (by show PastOK (t.mark_launched d now).past_pairs; rw [m3]; exact i4)
    rw [hpa] at g1 g2 g3 g4 g5 g6
    dsimp only at g1 g2 g3 g4 g5 g6
    refine ⟨?_, ?_, ?_, g5, ?_⟩
    · show ∀ p ∈ t3.players, PlayerStored d p
      rw [g1]
      exact i1
    · show (t3.players.map Player.national_id).Nodup
      rw [g1]
      exact i2
    · show ∀ r ∈ t3.rounds ++ [rnd3], ∀ m ∈ r.«matches», MatchOK t3.players m
      rw [g1]
      intro r hr m hm
      rcases List.mem_append.1 hr with hr | hr
      · have hr2 : r ∈ t.rounds := by
          rw [g2, m2] at hr
          exact hr
        exact i3 r hr2 m hm
      · rcases List.mem_singleton.1 hr with rfl
        exact g6 m hm
    · show pyStrip t3.description = t3.description
      rw [g4, m4]
      exact i5
  | @next_round d t now shuf t' hperm hok ht ih =>
    obtain ⟨rndF, tF, hpl, heq⟩ := start_next_round_ok hok
    subst heq
    obtain ⟨i1, i2, i3, i4, i5⟩ := ih
    have hallnd : (Tournament.sorted_player_ids_by_score
        { t with current_round_number := t.current_round_number + 1 } shuf).Nodup := by
      refine (sorted_ids_perm _ shuf hperm).nodup_iff.2 ?_
      show (List.map Player.national_id t.players).Nodup
      exact i2
    obtain ⟨g1, g2, g3, g4, g5, g6⟩ := pairLoop_inv t.players _ hallnd _ []
      (Round.new (t.current_round_number + 1) now)
      { t with current_round_number := t.current_round_number + 1 }
      (rndF, tF) rfl
      (fun m hm => absurd hm (List.not_mem_nil m))
      i4 hpl
    dsimp only at g1 g2 g3 g4 g5 g6
    refine ⟨?_, ?_, ?_, g5, ?_⟩
    · show ∀ p ∈ tF.players, PlayerStored d p
      rw [g1]
      exact i1
    · show (tF.players.map Player.national_id).Nodup
      rw [g1]
      exact i2
    · show ∀ r ∈ tF.rounds ++ [rndF], ∀ m ∈ r.«matches», MatchOK tF.players m
      rw [g1]
      intro r hr m hm
      rcases List.mem_append.1 hr with hr | hr
      · rw [g2] at hr
        exact i3 r hr m hm
      · rcases List.mem_singleton.1 hr with rfl
        exact g6 m hm
    · show pyStrip tF.description = tF.description
      rw [g4]
      exact i5
  | @tiebreak_round d t leader_ids now shuf t' hperm hok ht ih =>
    obtain ⟨ids, rndF, htp, heq⟩ := start_tiebreak_round_ok hok
    subst heq
    obtain ⟨i1, i2, i3, i4, i5⟩ := ih
    have hms := tiebreakPairs_inv
      { t with current_round_number := t.current_round_number + 1 } ids
      (Round.new (t.current_round_number + 1) now) rndF htp
      (fun m hm => absurd hm (List.not_mem_nil m))
    refine ⟨i1, i2, ?_, i4, i5⟩
    intro r hr m hm
    rcases List.mem_append.1 hr with hr | hr
    · exact i3 r hr m hm
    · rcases List.mem_singleton.1 hr with rfl
      exact hms m hm

theorem mapM_ok_id {α : Type} (f : α → Except PyStr α) :
    ∀ l : List α, (∀ x ∈ l, f x = .ok x) → l.mapM f = .ok l := by
  intro l
  induction l with
  | nil => intro _; rfl
  | cons x xs ih =>
    intro hall
    rw [List.mapM_cons, hall x (List.mem_cons_self x xs),
      ih (fun y hy => hall y (List.mem_cons_of_mem x hy))]
    rfl

/-- The serialization round trip under the intended player constructor, on
any state satisfying the invariant whose stored names are still accepted by
the validator. -/
theorem from_to_dict (d : Date) (t : Tournament) (hinv : InvT d t)
    (hnames : ∀ p ∈ t.players,
      isValidName p.last_name = true ∧ isValidName p.first_name = true) :
    Tournament.from_dict_intended d t.to_dict =
      .ok { t with repo_name := if t.repo_name ≠ [] then t.repo_name else t.name } := by
  obtain ⟨i1, i2, i3, i4, i5⟩ := hinv
  have hids : ∀ p ∈ t.players, p.national_id ≠ [] :=
    fun p hp => isValidId_ne_nil (i1 p hp).2.2.2.1
  have hplayers : t.players.mapM (Player.from_dict_intended d) = .ok t.players :=
    mapM_ok_id _ t.players (fun p hp =>
      player_from_dict_roundtrip d p (hnames p hp).1 (hnames p hp).2
        (i1 p hp).2.2.2.2 (i1 p hp).2.2.2.1 (i1 p hp).1 (i1 p hp).2.1
        (i1 p hp).2.2.1)
  have hrounds : (t.rounds.map Round.to_dict).mapM
      (Round.from_dict (playerLookup t.players)) = .ok t.rounds :=
    mapM_ok_of_forall _ _ t.rounds (fun r hr =>
      Round_roundtrip t.players i2 hids r (i3 r hr))
  have hpast : (t.past_pairs.map pairToList).foldl addPastPair [] = t.past_pairs := by
    have hh := pastPairs_refold t.past_pairs [] i4.1
      (fun q hq => rfl) i4.2
    rw [hh, List.nil_append]
  have hsd : (if t.start_date ≠ [] then t.start_date else []) = t.start_date := by
    split_ifs with h
    · rfl
    · exact (not_not.1 h).symm
  obtain ⟨loc, sd, ed, sa, fa, desc, nr, crn, ps, rs, sc, pp, rn, wid⟩ := t
  dsimp only at i5 hplayers hrounds hpast hsd ⊢
  unfold Tournament.from_dict_intended Tournament.to_dict Tournament.new
  dsimp only
  rw [hplayers]
  dsimp only
  rw [hrounds]
  dsimp only
  rw [hpast, hsd, i5]

-- ---------------------------------------------------------------------
-- C3: serialization round trip
-- ---------------------------------------------------------------------

/-- The stored form of a player registered with the raw (valid) name `"ÿ"`:
`str.title()` maps `ÿ` (U+00FF) to `Ÿ` (U+0178), which lies outside the
validator's character class `[A-Za-zÀ-ÖØ-öø-ÿ' -]`. -/
def playerY : Player :=
  { last_name := [376], first_name := pystr "Bo"
    birthdate := pystr "1990-01-01", national_id := pystr "AB12345"
    date_enrolled := pystr "2025-10-12", match_history := []
    tournaments_won := 0 }

/-- A tournament whose roster holds the `ÿ`-named player. -/
def tY : Tournament :=
  stateOf ((Tournament.new (pystr "Lyon") [] [] [] 4).add_player playerY)

theorem playerY_ctor : PlayerFromCtor sdate playerY :=
  ⟨sdate, pystr "ÿ", pystr "bo", pystr "1990-01-01", pystr "ab12345", [], 0,
    Or.inr rfl, by decide⟩

theorem reach_tY : Reachable sdate tY :=
  Reachable.add_player playerY tY playerY_ctor (by decide)
    (Reachable.init sdate (pystr "Lyon") [] [] [] 4)

/-- Even under the intended constructor the round trip needs the
name-validity proviso of `from_to_dict`: the stored title-cased name `"Ÿ"`
fails `is_valid_name` on reload, so deserialization of this reachable
state's serialization raises `ValueError("Nom de famille invalide.")`. -/
theorem intended_round_trip_title_counterexample :
    Reachable sdate tY ∧
    Tournament.from_dict_intended sdate tY.to_dict =
      .error (pystr "Nom de famille invalide.") :=
  ⟨reach_tY, by decide⟩

/-- Under the intended player constructor, the round trip rebuilds every
engine-visible field of every reachable state whose stored names still pass
the validator (`repo_name` only feeds the stored `name` key). -/
theorem intended_round_trip (d : Date) (t : Tournament) (ht : Reachable d t)
    (hnames : ∀ p ∈ t.players,
      isValidName p.last_name = true ∧ isValidName p.first_name = true) :
    ∃ t2, Tournament.from_dict_intended d t.to_dict = .ok t2 ∧ TournEquiv t2 t :=
  ⟨_, from_to_dict d t (InvT_of_reachable ht) hnames,
    rfl, rfl, rfl, rfl, rfl, rfl, rfl, rfl, rfl, rfl, rfl, rfl, rfl⟩

/-- C3: the round trip `from_dict ∘ to_dict` never rebuilds a state with a
non-empty roster.  `constants/player_fields.py` stores the first-name
validation key as the mojibake `"Pr√©nom"` while `Player.__init__` looks up
`VALIDATION_MAP["Prénom"]`, so rebuilding the first serialized player raises
`KeyError('Prénom')` as soon as its stored last name passes the preceding
check (and `ValueError("Nom de famille invalide.")` otherwise): `from_dict`
fails on every serialization holding at least one player, where the claim
says it rebuilds an equivalent tournament. -/
theorem C3_round_trip_key_error (d : Date) (t : Tournament) (p : Player)
    (rest : List Player) (hp : t.players = p :: rest) :
    Tournament.from_dict d t.to_dict =
      .error (if isValidName p.last_name = true then pystr "KeyError: Prénom"
              else pystr "Nom de famille invalide.") := by
  unfold Tournament.from_dict Tournament.to_dict
  dsimp only
  rw [hp, List.mapM_cons, Player_from_dict_error]
  by_cases hn : isValidName p.last_name = true
  · rw [if_pos hn]
    rfl
  · rw [if_neg hn]
    rfl

theorem C3_round_trip_key_error_witness :
    (tStage 1).players = samplePlayer 1 :: [] ∧
    Tournament.from_dict sdate (tStage 1).to_dict =
      .error (if isValidName (samplePlayer 1).last_name = true
              then pystr "KeyError: Prénom"
              else pystr "Nom de famille invalide.") :=
  ⟨by decide,
    C3_round_trip_key_error sdate (tStage 1) (samplePlayer 1) [] (by decide)⟩
end ChessManager
